import Mathlib

/-!
Verification development for the AuDHD-LifeCoach commitment-extraction core.

The Python source is shallowly embedded in Lean:
  - Python strings are lists of Unicode code points (`Str := List Nat`);
  - `datetime` values are a calendar date plus a minute-of-day
    (`PyDateTime`), with `timedelta` values as whole minutes (`Int`) —
    the source only ever constructs and compares datetimes at minute
    granularity;
  - the external capabilities (the NER model, the spaCy pipeline, the
    `dateparser` library) are function parameters of the embedded
    adapters: the adapters in `src` are quantified over every possible
    behaviour of those collaborators;
  - fallible code returns `Option`; regular-expression scans from the
    source are transcribed as explicit scanning functions with the same
    leftmost-match and greedy semantics on the patterns involved.

Embedded components (file paths refer to the repository):
  - core/domain/entities/{communication,commitment,reminder}.py
  - core/domain/config.py
  - core/services/communication_processor.py
  - adapters/ai/hugging_face_onyx_transformer_commitment_identifier.py
  - adapters/ai/spacy_commitment_identifier.py
-/

/-- A Python string, as its list of Unicode code points. -/
abbrev Str := List Nat

/-- Code points of a Lean string literal (all our literals are ASCII). -/
def lc (s : String) : Str := s.data.map Char.toNat

/-- The apostrophe code point, kept out of string literals. -/
def apos : Nat := 39

/-- ASCII lower-casing of one code point (Python `str.lower` on ASCII). -/
def lowerCode (c : Nat) : Nat := if 65 ≤ c ∧ c ≤ 90 then c + 32 else c

/-- Python `str.lower` for ASCII text. -/
def lowerStr (s : Str) : Str := s.map lowerCode

def isDigitCode (c : Nat) : Bool := 48 ≤ c ∧ c ≤ 57

def isUpperCode (c : Nat) : Bool := 65 ≤ c ∧ c ≤ 90

def isAlphaCode (c : Nat) : Bool := (65 ≤ c ∧ c ≤ 90) ∨ (97 ≤ c ∧ c ≤ 122)

/-- Python regex `\w` (ASCII): letters, digits, underscore. -/
def isWordCode (c : Nat) : Bool := isAlphaCode c || isDigitCode c || c = 95

/-- Python regex `\s` / `str.split()` whitespace (ASCII). -/
def isSpaceCode (c : Nat) : Bool := c = 32 || c = 9 || c = 10 || c = 13 || c = 12 || c = 11

/-- Does `pre` occur at the front of `s`? (case-sensitive) -/
def strStarts : Str → Str → Bool
  | _, [] => true
  | [], _ :: _ => false
  | c :: s, p :: pre => c = p && strStarts s pre

/-- Python `needle in hay` for strings (contiguous substring). -/
def containsSub (hay needle : Str) : Bool :=
  match hay with
  | [] => needle = []
  | _ :: rest => strStarts hay needle || containsSub rest needle

/-- Python `hay.find(needle)`: index of the leftmost occurrence. -/
def findSub (hay needle : Str) : Option Nat :=
  match hay with
  | [] => if needle = [] then some 0 else none
  | _ :: rest =>
    if strStarts hay needle then some 0
    else (findSub rest needle).map (· + 1)

/-- Recursion core of `replaceAll`; the fuel is structural so that the
kernel can evaluate it (one unit of fuel is spent per step and a step
consumes at least one code point, so `s.length + 1` units suffice). -/
def replaceAllAux (old new : Str) : Nat → Str → Str
  | 0, s => s
  | _ + 1, [] => []
  | fuel + 1, c :: rest =>
    if strStarts (c :: rest) old then
      new ++ replaceAllAux old new fuel ((c :: rest).drop old.length)
    else c :: replaceAllAux old new fuel rest

/-- Python `s.replace(old, new)` (all occurrences, left to right);
the empty-pattern case is returned unchanged (never hit by the source,
which only replaces non-empty phrases). -/
def replaceAll (s old new : Str) : Str :=
  if old.length = 0 then s else replaceAllAux old new (s.length + 1) s

/-- Python `s.strip()`. -/
def stripWS (s : Str) : Str :=
  ((s.dropWhile (isSpaceCode ·)).reverse.dropWhile (isSpaceCode ·)).reverse

/-- Recursion core of `splitWS` (fuel as in `replaceAllAux`). -/
def splitWSAux : Nat → Str → List Str
  | 0, _ => []
  | _ + 1, [] => []
  | fuel + 1, c :: rest =>
    if isSpaceCode c then splitWSAux fuel rest
    else
      (c :: rest.takeWhile (fun d => !isSpaceCode d))
        :: splitWSAux fuel (rest.dropWhile (fun d => !isSpaceCode d))

/-- Python `s.split()` (split on whitespace runs, no empty pieces). -/
def splitWS (s : Str) : List Str := splitWSAux (s.length + 1) s

/-- Python `" ".join(ws)`. -/
def joinSpace : List Str → Str
  | [] => []
  | [w] => w
  | w :: rest => w ++ (32 :: joinSpace rest)

/-- ASCII upper-casing of one code point. -/
def upperCode (c : Nat) : Nat := if 97 ≤ c ∧ c ≤ 122 then c - 32 else c

/-- Python `s.capitalize()`: first code point upper-cased, rest lower-cased. -/
def capitalizeStr (s : Str) : Str :=
  match s with
  | [] => []
  | c :: rest => upperCode c :: lowerStr rest

/-- Python slice `s[i:j]`. -/
def sliceStr (s : Str) (i j : Nat) : Str := (s.take j).drop i

/-! ### Calendar and datetime model

Python `datetime.date` is a proleptic-Gregorian (year, month, day);
`datetime.datetime` adds a time of day, modelled at minute granularity
(the source never constructs or compares sub-minute components except
through `datetime.now()`, whose seconds are irrelevant to every claim). -/

structure Date where
  year : Nat
  month : Nat
  day : Nat
deriving DecidableEq, Repr

/-- Gregorian leap-year rule. -/
def isLeap (y : Nat) : Bool := (y % 4 = 0 && y % 100 ≠ 0) || y % 400 = 0

def daysInMonth (y m : Nat) : Nat :=
  if m = 2 then (if isLeap y then 29 else 28)
  else if m = 4 ∨ m = 6 ∨ m = 9 ∨ m = 11 then 30
  else 31

/-- Validity as enforced by the `datetime` constructor (which raises
`ValueError` outside these bounds). -/
def isValidYMD (y m d : Nat) : Bool :=
  1 ≤ y && y ≤ 9999 && 1 ≤ m && m ≤ 12 && 1 ≤ d && d ≤ daysInMonth y m

/-- `datetime(year, month, day).date()` with the `ValueError` modelled as
`none`. -/
def mkDate (y m d : Nat) : Option Date :=
  if isValidYMD y m d then some ⟨y, m, d⟩ else none

/-- The next calendar day. -/
def succDay (d : Date) : Date :=
  if d.day < daysInMonth d.year d.month then ⟨d.year, d.month, d.day + 1⟩
  else if d.month < 12 then ⟨d.year, d.month + 1, 1⟩
  else ⟨d.year + 1, 1, 1⟩

/-- The previous calendar day. -/
def predDay (d : Date) : Date :=
  if 1 < d.day then ⟨d.year, d.month, d.day - 1⟩
  else if 1 < d.month then ⟨d.year, d.month - 1, daysInMonth d.year (d.month - 1)⟩
  else ⟨d.year - 1, 12, 31⟩

def addDaysNat (d : Date) : Nat → Date
  | 0 => d
  | n + 1 => succDay (addDaysNat d n)

def subDaysNat (d : Date) : Nat → Date
  | 0 => d
  | n + 1 => predDay (subDaysNat d n)

/-- `date + timedelta(days=k)`. -/
def addDaysInt (d : Date) (k : Int) : Date :=
  if 0 ≤ k then addDaysNat d k.toNat else subDaysNat d (-k).toNat

/-- Days before month `m` in year `y` (for the day-number formula). -/
def daysBeforeMonth (y m : Nat) : Nat :=
  (List.range (m - 1)).foldl (fun acc i => acc + daysInMonth y (i + 1)) 0

/-- Proleptic-Gregorian day number with day number 0 at 0001-01-01,
which was a Monday (`datetime(1, 1, 1).weekday() == 0` in Python). -/
def dayNumber (d : Date) : Nat :=
  365 * (d.year - 1) + (d.year - 1) / 4 - (d.year - 1) / 100 + (d.year - 1) / 400
    + daysBeforeMonth d.year d.month + (d.day - 1)

/-- Python `date.weekday()`: Monday = 0 … Sunday = 6. -/
def weekdayOf (d : Date) : Nat := dayNumber d % 7

/-- Strict lexicographic order on dates — exactly Python `date.__lt__`
for valid dates. -/
def dateLt (a b : Date) : Prop :=
  a.year < b.year ∨ (a.year = b.year ∧
    (a.month < b.month ∨ (a.month = b.month ∧ a.day < b.day)))

instance : DecidablePred fun p : Date × Date => dateLt p.1 p.2 := fun _ => by
  unfold dateLt; infer_instance

instance (a b : Date) : Decidable (dateLt a b) := by unfold dateLt; infer_instance

/-- Python `datetime` at minute granularity: a date plus minute of day. -/
structure PyDateTime where
  date : Date
  mod : Nat
deriving DecidableEq, Repr

/-- `datetime(y, mo, d, h, mi)` shorthand for building concrete inputs. -/
def dtMk (y mo d h mi : Nat) : PyDateTime := ⟨⟨y, mo, d⟩, h * 60 + mi⟩

/-- Python `datetime.replace(hour=h, minute=m)` (at minute granularity). -/
def dtReplaceHM (t : PyDateTime) (h m : Nat) : PyDateTime := ⟨t.date, h * 60 + m⟩

def dtHour (t : PyDateTime) : Nat := t.mod / 60

def dtMinute (t : PyDateTime) : Nat := t.mod % 60

def dtWeekday (t : PyDateTime) : Nat := weekdayOf t.date

/-- `datetime + timedelta(minutes=k)` (also any whole-hour or whole-day
`timedelta`, converted to minutes). -/
def addMinutes (t : PyDateTime) (k : Int) : PyDateTime :=
  let total : Int := (t.mod : Int) + k
  ⟨addDaysInt t.date (total / 1440), (total % 1440).toNat⟩

/-- Python `datetime.__le__`: lexicographic on (date, time of day). -/
def dtLe (a b : PyDateTime) : Prop :=
  dateLt a.date b.date ∨ (a.date = b.date ∧ a.mod ≤ b.mod)

instance (a b : PyDateTime) : Decidable (dtLe a b) := by unfold dtLe; infer_instance

/-- Python `datetime.__lt__`. -/
def dtLt (a b : PyDateTime) : Prop :=
  dateLt a.date b.date ∨ (a.date = b.date ∧ a.mod < b.mod)

instance (a b : PyDateTime) : Decidable (dtLt a b) := by unfold dtLt; infer_instance

/-! ### Scanning helpers for the regular expressions used by the source

The adapters use a fixed set of regex patterns.  Each pattern is
transcribed as an explicit matcher `Str → Nat → Option Nat` returning the
end position of the (greedy, leftmost-preferred) match starting at the
given position.  Case-insensitive patterns run on the lowered text (code
point indices are unaffected by ASCII lowering). -/

/-- Length of the maximal run of code points satisfying `p` from `i`. -/
def runLen (p : Nat → Bool) (s : Str) (i : Nat) : Nat :=
  ((s.drop i).takeWhile p).length

/-- Match a literal at `i` (on already case-normalised text). -/
def litAt (s lit : Str) (i : Nat) : Option Nat :=
  if strStarts (s.drop i) lit then some (i + lit.length) else none

/-- First alternative (in pattern order) matching at `i`; returns the end
position and the alternative that matched. -/
def altAt (s : Str) (alts : List Str) (i : Nat) : Option (Nat × Str) :=
  match alts with
  | [] => none
  | a :: rest =>
    match litAt s a i with
    | some e => some (e, a)
    | none => altAt s rest i

/-- Regex `\b`: exactly one side of position `i` is a word character. -/
def boundaryAt (s : Str) (i : Nat) : Bool :=
  let before := decide (0 < i) && (match s[i-1]? with | some c => isWordCode c | none => false)
  let after := match s[i]? with | some c => isWordCode c | none => false
  before ≠ after

/-- Digits `s[i..i+len)` read as a number (`int(...)` on a match group). -/
def readNat (s : Str) (i len : Nat) : Nat :=
  (sliceStr s i (i + len)).foldl (fun acc c => acc * 10 + (c - 48)) 0

/-- All non-overlapping matches of `m` in `s`, leftmost first, as
`(start, end)` pairs — Python `re.finditer` for non-empty matches. -/
def finditerAux (m : Str → Nat → Option Nat) (s : Str) (pos fuel : Nat) :
    List (Nat × Nat) :=
  match fuel with
  | 0 => []
  | fuel + 1 =>
    if pos < s.length then
      match m s pos with
      | some e =>
        if pos < e then (pos, e) :: finditerAux m s e fuel
        else finditerAux m s (pos + 1) fuel
      | none => finditerAux m s (pos + 1) fuel
    else []

def finditer (m : Str → Nat → Option Nat) (s : Str) : List (Nat × Nat) :=
  finditerAux m s 0 (s.length + 1)

/-- `re.search`: start and end of the leftmost match. -/
def searchFirst (m : Str → Nat → Option Nat) (s : Str) : Option (Nat × Nat) :=
  (finditer m s).head?

/-- Is there a match anywhere? -/
def searchSome (m : Str → Nat → Option Nat) (s : Str) : Bool :=
  (searchFirst m s).isSome

/-- `\b<word>\b` searched case-insensitively (`low` is the lowered text,
`w` a lowercase word). -/
def searchWordCI (low w : Str) : Bool :=
  searchSome
    (fun s i =>
      if boundaryAt s i then
        match litAt s w i with
        | some e => if boundaryAt s e then some e else none
        | none => none
      else none) low

/-! ### Domain entities

`core/domain/config.py`, `core/domain/entities/communication.py`,
`commitment.py`, `reminder.py`. -/

/-- `DEFAULT_TRAVEL_TIME = timedelta(minutes=15)` (config.py). -/
def DEFAULT_TRAVEL_TIME : Int := 15

/-- `DEFAULT_PREP_TIME = timedelta(minutes=5)` (config.py). -/
def DEFAULT_PREP_TIME : Int := 5

/-- `Communication` dataclass: content, sender, recipient, timestamp
(the timestamp default `datetime.now()` is supplied by the caller). -/
structure Communication where
  content : Str
  sender : Str
  recipient : Str
  timestamp : PyDateTime
deriving DecidableEq, Repr

/-- `Commitment` dataclass.  The Python field `where` is a Lean keyword
and is embedded as `whereLoc`. -/
structure Commitment where
  start_time : PyDateTime
  end_time : PyDateTime
  who : Str
  what : Str
  whereLoc : Str
  estimated_travel_time : Int := DEFAULT_TRAVEL_TIME
  estimated_prep_time : Int := DEFAULT_PREP_TIME
deriving DecidableEq, Repr

/-- `Commitment.calculate_departure_time`:
`start_time - estimated_travel_time - estimated_prep_time`. -/
def Commitment.calculate_departure_time (c : Commitment) : PyDateTime :=
  addMinutes (addMinutes c.start_time (-c.estimated_travel_time)) (-c.estimated_prep_time)

/-- `Reminder` dataclass. -/
structure Reminder where
  when : PyDateTime
  commitment : Commitment
  message : Str
  acknowledged : Bool := false
deriving DecidableEq, Repr

/-- Recursion core of `natDigits` (fuel is structural; `n` needs at most
`n + 1` division steps). -/
def natDigitsAux : Nat → Nat → Str
  | 0, _ => []
  | fuel + 1, n =>
    if n < 10 then [48 + n]
    else natDigitsAux fuel (n / 10) ++ [48 + n % 10]

/-- Decimal digits of `n` (for `strftime`). -/
def natDigits (n : Nat) : Str := natDigitsAux (n + 1) n

/-- Zero-padded to width 2 (`%H`, `%M`, `%m`, `%d`). -/
def pad2 (n : Nat) : Str := if n < 10 then 48 :: natDigits n else natDigits n

/-- Zero-padded to width 4 (`%Y`). -/
def pad4 (n : Nat) : Str :=
  let ds := natDigits n
  List.replicate (4 - ds.length) 48 ++ ds

/-- `start_time.strftime("%H:%M")`. -/
def fmtHM (t : PyDateTime) : Str := pad2 (dtHour t) ++ (58 :: pad2 (dtMinute t))

/-- `start_time.strftime("%Y-%m-%d at %H:%M")`. -/
def fmtYMDHM (t : PyDateTime) : Str :=
  pad4 t.date.year ++ (45 :: pad2 t.date.month) ++ (45 :: pad2 t.date.day)
    ++ lc " at " ++ fmtHM t

/-- `Reminder.from_commitment(commitment, lead_time, message=None)`.
`now` is the wall clock read by `datetime.now()` for the today/future
phrasing of the generated message. -/
def Reminder.from_commitment (now : PyDateTime) (c : Commitment) (lead_time : Int) :
    Reminder :=
  let reminder_time := addMinutes c.start_time (-lead_time)
  let message :=
    if c.start_time.date = now.date then
      lc "Reminder: You have a commitment with " ++ c.who ++ lc " at "
        ++ fmtHM c.start_time ++ lc " today."
    else
      lc "Reminder: You have a commitment with " ++ c.who ++ lc " on "
        ++ fmtYMDHM c.start_time ++ lc "."
  { when := reminder_time, commitment := c, message := message }

/-- `Reminder.acknowledge()`. -/
def Reminder.ack (r : Reminder) : Reminder := { r with acknowledged := true }

/-- `Reminder.snooze(duration)`. -/
def Reminder.snooze (r : Reminder) (duration : Int) : Reminder :=
  { r with when := addMinutes r.when duration }

/-- `Reminder.is_due()`: `datetime.now() >= self.when and not self.acknowledged`;
the wall clock is the explicit `now` argument. -/
def Reminder.is_due (r : Reminder) (now : PyDateTime) : Bool :=
  decide (dtLe r.when now) && !r.acknowledged

/-- `CommunicationProcessor.process_communication`: identify commitments,
then build one Reminder per commitment with `Reminder.from_commitment`
(the 30-minute `lead_time` default of `from_commitment` applies). -/
def process_communication (identify : Communication → List Commitment)
    (now : PyDateTime) (communication : Communication) : List Reminder :=
  (identify communication).map (fun c => Reminder.from_commitment now c 30)

/-! ### HuggingFace transformer adapter

`adapters/ai/hugging_face_onyx_transformer_commitment_identifier.py`.
The NER pipeline and the `dateparser` library are external capabilities,
passed in as the parameters `ner` and `dp`; `now` is the wall clock read
by `datetime.now()` (the several reads during one call are modelled as
one instant).  The Bool in the result records whether the NER pipeline
was invoked. -/

/-- One record of the NER pipeline output (`entity` is the label; the
dict key `end` is embedded as `stop`; `score` may be absent). -/
structure NerEntity where
  entity : Str
  word : Str
  start : Nat
  stop : Nat
  score : Option ℚ
deriving DecidableEq, Repr

/-- A resolved time expression (`_extract_time_entities` result record). -/
structure TimeEntity where
  word : Str
  start : Nat
  stop : Nat
  parsed_datetime : PyDateTime
  score : ℚ
deriving DecidableEq, Repr

/-- `TIME_OF_DAY` mapping, in source (insertion) order. -/
def hfTIME_OF_DAY : List (Str × Nat × Nat) :=
  [(lc "morning", 9, 0), (lc "afternoon", 14, 0), (lc "evening", 18, 0),
   (lc "night", 20, 0), (lc "noon", 12, 0), (lc "midnight", 0, 0)]

/-- Weekday names as listed at lines 135 and 371 of the adapter. -/
def hfWeekdays : List Str :=
  [lc "monday", lc "tuesday", lc "wednesday", lc "thursday", lc "friday",
   lc "saturday", lc "sunday"]

/-- Matcher for `\d{1,2}:\d{2}` at a position. -/
def clockHMAt (s : Str) (i : Nat) : Option Nat :=
  let n := runLen isDigitCode s i
  if n = 0 ∨ 2 < n then none
  else
    match s[i + n]? with
    | some 58 => if 2 ≤ runLen isDigitCode s (i + n + 1) then some (i + n + 3) else none
    | _ => none

/-- Matcher for `(?:AM|PM|am|pm)` on lowered text. -/
def meridiemAt (s : Str) (i : Nat) : Option Nat :=
  (altAt s [lc "am", lc "pm"] i).map (·.1)

/-- Matcher for `(?:at|by|on|for)`. -/
def prepAt (s : Str) (i : Nat) : Option Nat :=
  (altAt s [lc "at", lc "by", lc "on", lc "for"] i).map (·.1)

/-- `TIME_PATTERNS[0]`: `\d{1,2}:\d{2}\s*(?:AM|PM|am|pm)?`. -/
def hfP1 (s : Str) (i : Nat) : Option Nat :=
  match clockHMAt s i with
  | none => none
  | some e =>
    let k := e + runLen isSpaceCode s e
    match meridiemAt s k with
    | some e2 => some e2
    | none => some k

/-- `TIME_PATTERNS[1]`: `(?:at|by|on|for)\s+\d{1,2}:\d{2}`. -/
def hfP2 (s : Str) (i : Nat) : Option Nat :=
  match prepAt s i with
  | none => none
  | some e =>
    let w := runLen isSpaceCode s e
    if w = 0 then none else clockHMAt s (e + w)

/-- `TIME_PATTERNS[2]`: `(?:at|by|on|for)\s+\d{1,2}\s*(?:AM|PM|am|pm)`. -/
def hfP3 (s : Str) (i : Nat) : Option Nat :=
  match prepAt s i with
  | none => none
  | some e =>
    let w := runLen isSpaceCode s e
    if w = 0 then none
    else
      let n := runLen isDigitCode s (e + w)
      if n = 0 ∨ 2 < n then none
      else meridiemAt s (e + w + n + runLen isSpaceCode s (e + w + n))

/-- `TIME_PATTERNS[3]`: `(?:at|by|on|for)\s+(?:noon|midnight)`. -/
def hfP4 (s : Str) (i : Nat) : Option Nat :=
  match prepAt s i with
  | none => none
  | some e =>
    let w := runLen isSpaceCode s e
    if w = 0 then none
    else (altAt s [lc "noon", lc "midnight"] (e + w)).map (·.1)

/-- `TIME_PATTERNS[4]`: `(?:next|this|tomorrow|today)\s+\w+\s+(?:at|by)\s+\d{1,2}`. -/
def hfP5 (s : Str) (i : Nat) : Option Nat :=
  match altAt s [lc "next", lc "this", lc "tomorrow", lc "today"] i with
  | none => none
  | some (e, _) =>
    let w1 := runLen isSpaceCode s e
    if w1 = 0 then none
    else
      let n1 := runLen isWordCode s (e + w1)
      if n1 = 0 then none
      else
        let j := e + w1 + n1
        let w2 := runLen isSpaceCode s j
        if w2 = 0 then none
        else
          match altAt s [lc "at", lc "by"] (j + w2) with
          | none => none
          | some (e2, _) =>
            let w3 := runLen isSpaceCode s e2
            if w3 = 0 then none
            else
              let n2 := runLen isDigitCode s (e2 + w3)
              if n2 = 0 then none else some (e2 + w3 + min n2 2)

/-- `TIME_PATTERNS[5]`: `(?:this|next|on)\s+(?:monday|…|sunday)`. -/
def hfP6 (s : Str) (i : Nat) : Option Nat :=
  match altAt s [lc "this", lc "next", lc "on"] i with
  | none => none
  | some (e, _) =>
    let w := runLen isSpaceCode s e
    if w = 0 then none
    else
      (altAt s [lc "monday", lc "tuesday", lc "wednesday", lc "thursday",
        lc "friday", lc "saturday", lc "sunday"] (e + w)).map (·.1)

/-- The time-of-day word alternation `(?:morning|afternoon|evening|night)`. -/
def todWordAt (s : Str) (i : Nat) : Option Nat :=
  (altAt s [lc "morning", lc "afternoon", lc "evening", lc "night"] i).map (·.1)

/-- `TIME_PATTERNS[6]`: `(?:this|tomorrow|tonight|today)?\s*(?:morning|afternoon|evening|night)`. -/
def hfP7 (s : Str) (i : Nat) : Option Nat :=
  let withPre :=
    match altAt s [lc "this", lc "tomorrow", lc "tonight", lc "today"] i with
    | some (e, _) => todWordAt s (e + runLen isSpaceCode s e)
    | none => none
  match withPre with
  | some e => some e
  | none => todWordAt s (i + runLen isSpaceCode s i)

/-- `TIME_PATTERNS[7]`: `(?:morning|afternoon|evening|night)`. -/
def hfP8 (s : Str) (i : Nat) : Option Nat := todWordAt s i

/-- `TIME_PATTERNS[8]`: `(?:friday|monday|tuesday|wednesday|thursday|saturday|sunday)`
(source order, friday first). -/
def hfP9 (s : Str) (i : Nat) : Option Nat :=
  (altAt s [lc "friday", lc "monday", lc "tuesday", lc "wednesday",
    lc "thursday", lc "saturday", lc "sunday"] i).map (·.1)

/-- `TIME_PATTERNS`, in source order. -/
def hfPatterns : List (Str → Nat → Option Nat) :=
  [hfP1, hfP2, hfP3, hfP4, hfP5, hfP6, hfP7, hfP8, hfP9]

/-- The `potential_times` loop: all matches of each pattern in pattern
order, as `(match.group(0), match.start(), match.end())`. -/
def hfPotentialTimes (text : Str) : List (Str × Nat × Nat) :=
  hfPatterns.foldl
    (fun acc m =>
      acc ++ (finditer m (lowerStr text)).map
        (fun se => (sliceStr text se.1 se.2, se.1, se.2)))
    []

/-- The `TIME_OF_DAY` loop of `_extract_time_entities` (lines 111-132):
resolve a time-of-day word inside a time expression whose direct parse
failed; a failed parse of the non-empty base expression continues the
loop (no `break` in the source on that path). -/
def hfTimeOfDayResolve (dp : Str → PyDateTime → Option PyDateTime)
    (now : PyDateTime) (time_expr : Str) :
    List (Str × Nat × Nat) → Option PyDateTime
  | [] => none
  | (tname, h, m) :: rest =>
    if containsSub (lowerStr time_expr) tname then
      let base_expr := stripWS (replaceAll (lowerStr time_expr) tname [])
      if base_expr.length ≠ 0 then
        match dp base_expr now with
        | some base_date => some (dtReplaceHM base_date h m)
        | none => hfTimeOfDayResolve dp now time_expr rest
      else
        let today := dtReplaceHM now h m
        some (if dtLt today now then addMinutes today 1440 else today)
    else hfTimeOfDayResolve dp now time_expr rest

/-- Processing of one potential time expression (lines 101-158). -/
def hfProcessTimeExpr (dp : Str → PyDateTime → Option PyDateTime)
    (now : PyDateTime) (tup : Str × Nat × Nat) : Option TimeEntity :=
  let time_expr := tup.1
  let parsed0 := dp time_expr now
  let parsed :=
    match parsed0 with
    | some d => some d
    | none =>
      match hfTimeOfDayResolve dp now time_expr hfTIME_OF_DAY with
      | some d => some d
      | none =>
        if hfWeekdays.any (fun day => containsSub (lowerStr time_expr) day) then
          match dp time_expr now with
          | some pd =>
            some (if weekdayOf pd.date < 5 then dtReplaceHM pd 9 0
                  else dtReplaceHM pd 10 0)
          | none => none
        else none
  parsed.map (fun pd => ⟨time_expr, tup.2.1, tup.2.2, pd, 1⟩)

/-- `time_phrases` of the fallback block (lines 160-187), source order. -/
def hfFallbackPhrases : List Str :=
  [lc "morning", lc "afternoon", lc "evening", lc "night", lc "tomorrow",
   lc "friday", lc "monday", lc "tuesday", lc "wednesday", lc "thursday"]

/-- The fallback scan: first contained phrase that parses wins
(score 0.9); a phrase that fails to parse does not stop the loop. -/
def hfFallbackScan (dp : Str → PyDateTime → Option PyDateTime)
    (now : PyDateTime) (text : Str) : List Str → List TimeEntity
  | [] => []
  | ph :: rest =>
    if containsSub (lowerStr text) ph then
      match dp ph now with
      | some pd =>
        let pd :=
          match hfTIME_OF_DAY.find? (fun t => t.1 = ph) with
          | some t => dtReplaceHM pd t.2.1 t.2.2
          | none => pd
        let st := (findSub (lowerStr text) ph).getD 0
        [⟨ph, st, st + ph.length, pd, mkRat 9 10⟩]
      | none => hfFallbackScan dp now text rest
    else hfFallbackScan dp now text rest

/-- `_extract_time_entities`. -/
def hfExtractTimeEntities (dp : Str → PyDateTime → Option PyDateTime)
    (now : PyDateTime) (text : Str) : List TimeEntity :=
  let tes := (hfPotentialTimes text).filterMap (hfProcessTimeExpr dp now)
  if tes.length = 0 then hfFallbackScan dp now text hfFallbackPhrases else tes

/-- A person span `(word, start, end, score)` gathered from the NER output. -/
structure PSpan where
  word : Str
  start : Nat
  stop : Nat
  score : ℚ
deriving DecidableEq, Repr

/-- Person labels recognised at line 207. -/
def hfPersonLabels : List Str := [lc "PER", lc "B-PER", lc "I-PER", lc "PERSON"]

/-- The merge loop of `_extract_person_entities` (lines 221-252): fold the
start-sorted spans, merging a span into the current one when it starts at
most 2 code points after the current end. -/
def hfMergeSpans : Option PSpan → List PSpan → List PSpan
  | none, [] => []
  | some cur, [] => [cur]
  | none, sp :: rest => hfMergeSpans (some sp) rest
  | some cur, sp :: rest =>
    if sp.start ≤ cur.stop + 2 then
      hfMergeSpans
        (some ⟨cur.word ++ (32 :: sp.word), cur.start, sp.stop, min cur.score sp.score⟩)
        rest
    else cur :: hfMergeSpans (some sp) rest

/-- The span-gathering loop of `_extract_person_entities`
(lines 203-214): PERSON-labelled entities as `(word, start, end, score)`
with a default score of 1. -/
def personSpans (standard_entities : List NerEntity) : List PSpan :=
  standard_entities.filterMap
    (fun e =>
      if hfPersonLabels.contains e.entity then
        some (⟨e.word, e.start, e.stop, e.score.getD 1⟩ : PSpan)
      else none)

/-- The name clean-up and shape filter of `_extract_person_entities`
(lines 258-267): normalise whitespace, keep names with at least one
uppercase code point and at most 3 tokens. -/
def nameFilter (sp : PSpan) : Option (Str × ℚ) :=
  let name := joinSpace (splitWS (stripWS sp.word))
  if name.any (fun c => isUpperCode c) ∧ (splitWS name).length ≤ 3 then
    some (name, sp.score)
  else none

/-- The ascending start-offset order of `person_spans.sort(key=start)`
(line 225). -/
def startOrder (a b : PSpan) : Prop := a.start ≤ b.start

instance : DecidableRel startOrder := fun a b => Nat.decLe a.start b.start

instance : IsTotal PSpan startOrder := ⟨fun a b => Nat.le_total a.start b.start⟩

instance : IsTrans PSpan startOrder := ⟨fun _ _ _ => Nat.le_trans⟩

/-- The descending confidence order of
`processed_names.sort(key=score, reverse=True)` (line 273). -/
def scoreOrder (a b : Str × ℚ) : Prop := b.2 ≤ a.2

instance : DecidableRel scoreOrder :=
  fun a b => inferInstanceAs (Decidable (b.2 ≤ a.2))

instance : IsTotal (Str × ℚ) scoreOrder := ⟨fun a b => le_total b.2 a.2⟩

instance : IsTrans (Str × ℚ) scoreOrder :=
  ⟨fun _ _ _ h1 h2 => le_trans h2 h1⟩

/-- `_extract_person_entities` (lines 191-274).  Python `list.sort` is a
stable sort, and a stable sort with respect to a total preorder has a
uniquely determined output, so the stable `List.insertionSort` embeds
both sorts of the source faithfully. -/
def hfExtractPerson (standard_entities : List NerEntity) : Option Str :=
  let person_spans := personSpans standard_entities
  if person_spans.length = 0 then none
  else
    let sorted := List.insertionSort startOrder person_spans
    let processed_names := (hfMergeSpans none sorted).filterMap nameFilter
    if processed_names.length = 0 then none
    else
      ((List.insertionSort scoreOrder processed_names).head?).map (·.1)

/-- `commitment_phrases` of `_has_commitment_intent` (lines 280-286). -/
def hfCommitmentPhrases : List Str :=
  [lc "will", lc "i" ++ (apos :: lc "ll"), lc "going to", lc "meet", lc "plan to",
   lc "attend", lc "submit", lc "promise", lc "promised", lc "agreed", lc "need to",
   lc "must", lc "have to", lc "should", lc "discuss", lc "by friday",
   lc "tomorrow", lc "this evening", lc "morning", lc "afternoon",
   lc "checkup", lc "recital", lc "report"]

/-- `_has_commitment_intent`. -/
def hfHasIntent (text : Str) : Bool :=
  hfCommitmentPhrases.any (fun p => containsSub (lowerStr text) p)

/-- The activity vocabulary of `_extract_activity` (lines 301-307). -/
def hfActivities : List Str :=
  [lc "call", lc "meet", lc "meeting", lc "appointment", lc "lunch", lc "dinner",
   lc "breakfast", lc "submit", lc "report", lc "presentation", lc "review",
   lc "interview", lc "discuss", lc "discussion", lc "check", lc "checkup",
   lc "exam", lc "examination", lc "attend", lc "event", lc "conference",
   lc "recital", lc "performance", lc "game", lc "match", lc "delivery"]

/-- `_extract_activity`: first whole-word activity match, capitalised,
else the default label. -/
def hfExtractActivity (text : Str) : Str :=
  match hfActivities.find? (fun a => searchWordCI (lowerStr text) a) with
  | some a => capitalizeStr a
  | none => lc "Meeting or appointment"

/-- `re.search(r'\d{1,2}:\d{2}|\d{1,2}\s*(am|pm)', w, IGNORECASE)` used by
`_get_time_range` to detect an explicit clock time inside the matched
time word. -/
def hasClockRef (w : Str) : Bool :=
  searchSome
    (fun s i =>
      match clockHMAt s i with
      | some e => some e
      | none =>
        let n := runLen isDigitCode s i
        if n = 0 ∨ 2 < n then none
        else meridiemAt s (i + n + runLen isSpaceCode s (i + n)))
    w

/-- `_get_time_range` (lines 317-382). -/
def hfGetTimeRange (time_entity : TimeEntity) (activity : Str) :
    PyDateTime × PyDateTime :=
  let start_time := time_entity.parsed_datetime
  let time_word := lowerStr time_entity.word
  let actLow := lowerStr activity
  let duration : Int :=
    if [lc "lunch", lc "dinner", lc "breakfast"].any (fun a => containsSub actLow a) then 90
    else if [lc "meeting", lc "discuss"].any (fun a => containsSub actLow a) then 60
    else if [lc "call"].any (fun a => containsSub actLow a) then 30
    else if [lc "checkup", lc "appointment"].any (fun a => containsSub actLow a) then 45
    else if [lc "recital", lc "concert", lc "performance"].any (fun a => containsSub actLow a) then 120
    else 60
  if containsSub time_word (lc "morning") then
    if !hasClockRef time_word then (start_time, addMinutes start_time 180)
    else (start_time, addMinutes start_time duration)
  else if containsSub time_word (lc "afternoon") then
    if !hasClockRef time_word then (start_time, addMinutes start_time 240)
    else (start_time, addMinutes start_time duration)
  else if containsSub time_word (lc "evening") then
    if !hasClockRef time_word then (start_time, addMinutes start_time 180)
    else (start_time, addMinutes start_time duration)
  else if hfWeekdays.any (fun day => containsSub time_word day) then
    if !hasClockRef time_word then
      (start_time,
       addMinutes start_time (if weekdayOf start_time.date < 5 then 480 else 240))
    else (start_time, addMinutes start_time duration)
  else (start_time, addMinutes start_time duration)

/-- Location labels recognised at line 413. -/
def hfLocationLabels : List Str := [lc "LOC", lc "B-LOC", lc "I-LOC", lc "LOCATION"]

/-- Body of the HuggingFace `identify_commitments`, parameterised by the
only two Communication fields the method reads: its content and its
recipient (the reference timestamp is never consulted). -/
def hfIdentifyFrom (text recipient : Str) (ner : Str → List NerEntity)
    (dp : Str → PyDateTime → Option PyDateTime) (now : PyDateTime) :
    List Commitment × Bool :=
  if text.length = 0 then ([], false)
  else if !hfHasIntent text then ([], false)
  else
    let standard_entities := ner text
    let time_entities := hfExtractTimeEntities dp now text
    let location_entity :=
      standard_entities.find? (fun e => hfLocationLabels.contains e.entity)
    let person :=
      match hfExtractPerson standard_entities with
      | some p => if p.length = 0 then recipient else p
      | none => recipient
    let activity := hfExtractActivity text
    match time_entities with
    | [] => ([], true)
    | te :: _ =>
      let se := hfGetTimeRange te activity
      let whereLoc :=
        match location_entity with
        | some le => le.word
        | none => lc "location mentioned in message"
      ([{ start_time := se.1, end_time := se.2, who := person,
          what := activity, whereLoc := whereLoc }], true)

/-- `identify_commitments` of the HuggingFace adapter (lines 384-452).
Besides the commitment list it returns whether the NER pipeline was
invoked during the call. -/
def hfIdentify (communication : Communication) (ner : Str → List NerEntity)
    (dp : Str → PyDateTime → Option PyDateTime) (now : PyDateTime) :
    List Commitment × Bool :=
  hfIdentifyFrom communication.content communication.recipient ner dp now

/-! ### spaCy adapter

`adapters/ai/spacy_commitment_identifier.py`.  The spaCy pipeline is an
external capability: sentence segmentation (`doc.sents`), the
dependency-parse-driven `_extract_what`, and the document entities
(`doc.ents`) are the parameters `sents`, `extractWhat` and `ents`.
Everything else (clause splitting, location pattern matching and
cleanup, date/time/duration extraction) is regex and string logic in the
source and is embedded directly. -/

/-- `first_person_indicators` of `_split_sentence_for_commitments`
(lines 131-132); apostrophes are built with `apos`. -/
def spacyFirstPerson : List Str :=
  [lc "i will", lc "i" ++ (apos :: lc "ll"), lc "i" ++ (apos :: lc "m going"),
   lc "i am going", lc "i can", lc "i promise", lc "i commit", lc "i agree",
   lc "i plan", lc "i intend", lc "i shall"]

/-- `we_indicators` (line 134). -/
def spacyWeIndicators : List Str :=
  [lc "we can", lc "we will", lc "we" ++ (apos :: lc "ll"),
   lc "we" ++ (apos :: lc "re going"), lc "we are going"]

/-- Matcher for `(conj)\s+we\s+(?:can|will|'ll|'re going|are going)`
(IGNORECASE, searched on lowered text). -/
def conjWeAt (conj : Str) (s : Str) (i : Nat) : Option Nat :=
  match litAt s conj i with
  | none => none
  | some e =>
    let w1 := runLen isSpaceCode s e
    if w1 = 0 then none
    else
      match litAt s (lc "we") (e + w1) with
      | none => none
      | some e2 =>
        let w2 := runLen isSpaceCode s e2
        if w2 = 0 then none
        else
          (altAt s [lc "can", lc "will", apos :: lc "ll",
            apos :: lc "re going", lc "are going"] (e2 + w2)).map (·.1)

/-- The conjunction loop of `_split_sentence_for_commitments`
(lines 143-161): first conjunction whose `(conj)\s+we\s+…` pattern
matches wins; both resulting parts are kept (the first only when it
contains a first-person indicator). -/
def spacyTryConj (text : Str) : List Str → List Str
  | [] => []
  | conj :: rest =>
    match searchFirst (conjWeAt conj) (lowerStr text) with
    | some se =>
      let split_idx := se.1
      let first_part := stripWS (sliceStr text 0 split_idx)
      let second_part := stripWS (sliceStr text split_idx text.length)
      let segs :=
        (if spacyFirstPerson.any (fun ind => containsSub (lowerStr first_part) ind)
         then [first_part] else [])
        ++ (if second_part.length ≠ 0 then [second_part] else [])
      if segs.length ≠ 0 then segs else spacyTryConj text rest
    | none => spacyTryConj text rest

/-- `_split_sentence_for_commitments` (lines 114-174).  The final
"general case" of the source computes indicator positions but never adds
a segment, so the function returns the collected segments or `[text]`. -/
def spacySplit (text : Str) : List Str :=
  let low := lowerStr text
  let has_first_person := spacyFirstPerson.any (fun ind => containsSub low ind)
  let has_we := spacyWeIndicators.any (fun ind => containsSub low ind)
  let segments : List Str :=
    if has_first_person ∧ has_we then
      spacyTryConj text [lc "and", lc "or", lc "then", lc "plus"]
    else []
  if segments.length ≠ 0 then segments else [text]

/-- spaCy entity labels accepted by `_extract_where` (line 233). -/
def spacyLocLabels : List Str := [lc "LOC", lc "GPE", lc "FAC"]

/-- Code points excluded by the capture class `[^.,;]`. -/
def isLocStop (c : Nat) : Bool := c = 46 || c = 44 || c = 59

/-- Matcher for `at\s+([^.,;]+)` / `in\s+([^.,;]+)`: returns the capture
span `(capStart, capEnd)`. -/
def prepLocAt (word : Str) (s : Str) (i : Nat) : Option (Nat × Nat) :=
  match litAt s word i with
  | none => none
  | some e =>
    let w := runLen isSpaceCode s e
    if w = 0 then none
    else
      let n := runLen (fun c => !isLocStop c) s (e + w)
      if n = 0 then none else some (e + w, e + w + n)

/-- Matcher for `(?:the\s+)?<word>(?:\s+is|:)\s+([^.,;]+)`. -/
def namedLocAt (word : Str) (s : Str) (i : Nat) : Option (Nat × Nat) :=
  let core : Nat → Option (Nat × Nat) := fun j =>
    match litAt s word j with
    | none => none
    | some e =>
      let afterTag : Option Nat :=
        let w1 := runLen isSpaceCode s e
        if w1 ≠ 0 then
          match litAt s (lc "is") (e + w1) with
          | some e2 => some e2
          | none => match s[e]? with | some 58 => some (e + 1) | _ => none
        else match s[e]? with | some 58 => some (e + 1) | _ => none
      match afterTag with
      | none => none
      | some e2 =>
        let w2 := runLen isSpaceCode s e2
        if w2 = 0 then none
        else
          let n := runLen (fun c => !isLocStop c) s (e2 + w2)
          if n = 0 then none else some (e2 + w2, e2 + w2 + n)
  match litAt s (lc "the") i with
  | some e =>
    let w := runLen isSpaceCode s e
    if w ≠ 0 then
      match core (e + w) with
      | some r => some r
      | none => core i
    else core i
  | none => core i

/-- Search for the first capture of a capture-producing matcher. -/
def searchCapAux (m : Str → Nat → Option (Nat × Nat)) (s : Str)
    (pos fuel : Nat) : Option (Nat × Nat) :=
  match fuel with
  | 0 => none
  | fuel + 1 =>
    if pos ≤ s.length then
      match m s pos with
      | some r => some r
      | none => searchCapAux m s (pos + 1) fuel
    else none

def searchCap (m : Str → Nat → Option (Nat × Nat)) (s : Str) : Option (Nat × Nat) :=
  searchCapAux m s 0 (s.length + 1)

/-- `re.sub(pattern, rep, s)`: replace all non-overlapping matches. -/
def subAll (m : Str → Nat → Option Nat) (rep : Str) (s : Str) : Str :=
  let spans := finditer m s
  let rec go (i : Nat) (sp : List (Nat × Nat)) : Str :=
    match sp with
    | [] => s.drop i
    | (a, b) :: rest => sliceStr s i a ++ rep ++ go b rest
  go 0 spans

/-- Day words of cleanup pattern 1 (line 251), in source order. -/
def cleanupDayWords : List Str :=
  [lc "monday", lc "tuesday", lc "wednesday", lc "thursday", lc "friday",
   lc "saturday", lc "sunday", lc "mon", lc "tue", lc "wed", lc "thu",
   lc "fri", lc "sat", lc "sun", lc "weekend"]

/-- Cleanup 1: `\b(?:on|this|next)\s+(<days>)\b`. -/
def cleanup1At (s : Str) (i : Nat) : Option Nat :=
  if !boundaryAt s i then none
  else
    match altAt s [lc "on", lc "this", lc "next"] i with
    | none => none
    | some (e, _) =>
      let w := runLen isSpaceCode s e
      if w = 0 then none
      else
        match altAt s cleanupDayWords (e + w) with
        | none => none
        | some (e2, _) => if boundaryAt s e2 then some e2 else none

/-- Cleanup 2: `\b(today|tomorrow|tonight|next|this)\s+\w+\b`. -/
def cleanup2At (s : Str) (i : Nat) : Option Nat :=
  if !boundaryAt s i then none
  else
    match altAt s [lc "today", lc "tomorrow", lc "tonight", lc "next", lc "this"] i with
    | none => none
    | some (e, _) =>
      let w := runLen isSpaceCode s e
      if w = 0 then none
      else
        let n := runLen isWordCode s (e + w)
        if n = 0 then none
        else if boundaryAt s (e + w + n) then some (e + w + n) else none

/-- Tail `\s*(?:am|pm)?\b` shared by cleanup 3, with the regex
backtracking order: longest whitespace first, and for each width the
meridiem-present attempt before the absent one. -/
def amPmTail (s : Str) (j : Nat) : Option Nat :=
  let rec go (sps : Nat) : Option Nat :=
    let k := j + sps
    match meridiemAt s k with
    | some e2 => if boundaryAt s e2 then some e2
                 else if boundaryAt s k then some k
                 else match sps with | 0 => none | sps + 1 => go sps
    | none => if boundaryAt s k then some k
              else match sps with | 0 => none | sps + 1 => go sps
  go (runLen isSpaceCode s j)

/-- Cleanup 3: `\b\d{1,2}(?::\d{2})?\s*(?:am|pm|AM|PM)?\b` (on lowered
text, so the meridiem alternation is `am|pm`). -/
def cleanup3At (s : Str) (i : Nat) : Option Nat :=
  if !boundaryAt s i then none
  else
    let n := runLen isDigitCode s i
    if n = 0 ∨ 2 < n then none
    else
      let d := i + n
      let withColon : Option Nat :=
        match s[d]? with
        | some 58 => if 2 ≤ runLen isDigitCode s (d + 1) then amPmTail s (d + 3) else none
        | _ => none
      match withColon with
      | some e => some e
      | none => amPmTail s d

/-- Cleanup 4: `\b(morning|afternoon|evening|night|noon|midnight)\b`. -/
def cleanup4At (s : Str) (i : Nat) : Option Nat :=
  if !boundaryAt s i then none
  else
    match altAt s [lc "morning", lc "afternoon", lc "evening", lc "night",
      lc "noon", lc "midnight"] i with
    | none => none
    | some (e, _) => if boundaryAt s e then some e else none

/-- Cleanup 5: `\bto\s+(?:discuss|review|talk|go|meet|work)\s+[^,;.]+`. -/
def cleanup5At (s : Str) (i : Nat) : Option Nat :=
  if !boundaryAt s i then none
  else
    match litAt s (lc "to") i with
    | none => none
    | some e =>
      let w := runLen isSpaceCode s e
      if w = 0 then none
      else
        match altAt s [lc "discuss", lc "review", lc "talk", lc "go",
          lc "meet", lc "work"] (e + w) with
        | none => none
        | some (e2, _) =>
          let w2 := runLen isSpaceCode s e2
          if w2 = 0 then none
          else
            let n := runLen (fun c => !isLocStop c) s (e2 + w2)
            if n = 0 then none else some (e2 + w2 + n)

/-- Whitespace-run matcher for `re.sub(r'\s+', ' ', …)`. -/
def wsRunAt (s : Str) (i : Nat) : Option Nat :=
  let n := runLen isSpaceCode s i
  if n = 0 then none else some (i + n)

/-- Trailing-conjunction matcher `\b(to|and|for|with)\s*$` — the one
case-sensitive substitution of `_extract_where`. -/
def trailConjAt (s : Str) (i : Nat) : Option Nat :=
  if !boundaryAt s i then none
  else
    match altAt s [lc "to", lc "and", lc "for", lc "with"] i with
    | none => none
    | some (e, _) =>
      let w := runLen isSpaceCode s e
      if e + w = s.length then some (e + w) else none

/-- The cleanup pass of `_extract_where` (lines 250-259).  The five
removal substitutions and the whitespace collapse run on the lowered
copy only for matching; Python applies them to the captured text itself
with `re.IGNORECASE`, so the embedding lowers for matching and removes
the same spans from the original. -/
def spacyCleanLocation (location : Str) : Str :=
  let subCI (m : Str → Nat → Option Nat) (rep : Str) (t : Str) : Str :=
    let spans := finditer m (lowerStr t)
    let rec go (i : Nat) (sp : List (Nat × Nat)) : Str :=
      match sp with
      | [] => t.drop i
      | (a, b) :: rest => sliceStr t i a ++ rep ++ go b rest
    go 0 spans
  let l1 := subCI cleanup1At [] location
  let l2 := subCI cleanup2At [] l1
  let l3 := subCI cleanup3At [] l2
  let l4 := subCI cleanup4At [] l3
  let l5 := subCI cleanup5At [] l4
  let l6 := stripWS (subCI wsRunAt [32] l5)
  stripWS (subAll trailConjAt [] l6)

/-- `_extract_where` (lines 218-264): first LOC/GPE/FAC entity verbatim,
else the first preposition pattern whose cleaned capture is non-empty. -/
def spacyExtractWhere (ents : Str → List NerEntity) (text : Str) : Option Str :=
  match (ents text).find? (fun e => spacyLocLabels.contains e.entity) with
  | some e => some e.word
  | none =>
    let low := lowerStr text
    let tryPattern : (Str → Nat → Option (Nat × Nat)) → Option Str := fun m =>
      match searchCap m low with
      | some cap =>
        let location := spacyCleanLocation (stripWS (sliceStr text cap.1 cap.2))
        if location.length ≠ 0 then some location else none
      | none => none
    match tryPattern (prepLocAt (lc "at")) with
    | some l => some l
    | none =>
      match tryPattern (prepLocAt (lc "in")) with
      | some l => some l
      | none =>
        match tryPattern (namedLocAt (lc "location")) with
        | some l => some l
        | none =>
          match tryPattern (namedLocAt (lc "place")) with
          | some l => some l
          | none => tryPattern (namedLocAt (lc "venue"))

/-- `month_names` mapping (lines 44-49). -/
def spacyMonthNames : List (Str × Nat) :=
  [(lc "january", 1), (lc "february", 2), (lc "march", 3), (lc "april", 4),
   (lc "may", 5), (lc "june", 6), (lc "july", 7), (lc "august", 8),
   (lc "september", 9), (lc "october", 10), (lc "november", 11), (lc "december", 12),
   (lc "jan", 1), (lc "feb", 2), (lc "mar", 3), (lc "apr", 4), (lc "jun", 6),
   (lc "jul", 7), (lc "aug", 8), (lc "sep", 9), (lc "oct", 10), (lc "nov", 11),
   (lc "dec", 12)]

/-- `day_map` plus full names: the lowered weekday term resolved to its
index in `calendar.day_name` (Monday = 0). -/
def spacyDayIndex (term : Str) : Option Nat :=
  let full := hfWeekdays
  let abbrevs := [lc "mon", lc "tue", lc "wed", lc "thu", lc "fri", lc "sat", lc "sun"]
  match full.indexOf? term with
  | some i => some i
  | none => abbrevs.indexOf? term

/-- Matcher for the relative-date pattern
`\b(today|tomorrow|tonight|the day after tomorrow)\b`; returns the end
and the matched term. -/
def relDateAt (s : Str) (i : Nat) : Option Nat :=
  if !boundaryAt s i then none
  else
    match altAt s [lc "today", lc "tomorrow", lc "tonight",
      lc "the day after tomorrow"] i with
    | none => none
    | some (e, _) => if boundaryAt s e then some e else none

/-- The matched relative term at a position (for the resolution step). -/
def relDateTermAt (s : Str) (i : Nat) : Option Str :=
  if !boundaryAt s i then none
  else
    match altAt s [lc "today", lc "tomorrow", lc "tonight",
      lc "the day after tomorrow"] i with
    | none => none
    | some (e, t) => if boundaryAt s e then some t else none

/-- Matcher for `\b(this|next)\s+(<days>)\b`; returns the end position
together with qualifier and day term. -/
def dayRefAt (s : Str) (i : Nat) : Option (Nat × Str × Str) :=
  if !boundaryAt s i then none
  else
    match altAt s [lc "this", lc "next"] i with
    | none => none
    | some (e, q) =>
      let w := runLen isSpaceCode s e
      if w = 0 then none
      else
        match altAt s cleanupDayWords (e + w) with
        | none => none
        | some (e2, d) => if boundaryAt s e2 then some (e2, q, d) else none

/-- Matcher for the numeric date pattern of line 359: one or two digits,
a slash-or-dash separator, one or two digits, an optional second
separator with a 2-to-4-digit year, all inside word boundaries; returns
the end position with the captured month, day and optional year.  The
optional year group follows the regex backtracking order: year lengths
4, 3, 2 (greedy), then the group absent. -/
def numDateAt (s : Str) (i : Nat) : Option (Nat × Nat × Nat × Option Nat) :=
  if !boundaryAt s i then none
  else
    let n1 := runLen isDigitCode s i
    if n1 = 0 ∨ 2 < n1 then none
    else
      match s[i + n1]? with
      | some c1 =>
        if c1 ≠ 47 ∧ c1 ≠ 45 then none
        else
          let j := i + n1 + 1
          let n2 := runLen isDigitCode s j
          if n2 = 0 ∨ 2 < n2 then none
          else
            let month := readNat s i n1
            let day := readNat s j n2
            let k := j + n2
            let withYear : Option (Nat × Nat × Nat × Option Nat) :=
              match s[k]? with
              | some c2 =>
                if c2 ≠ 47 ∧ c2 ≠ 45 then none
                else
                  let n3 := runLen isDigitCode s (k + 1)
                  let tryLen : List Nat → Option (Nat × Nat × Nat × Option Nat) :=
                    fun ls => ls.findSome? (fun yl =>
                      if yl ≤ n3 ∧ boundaryAt s (k + 1 + yl) then
                        some (k + 1 + yl, month, day, some (readNat s (k + 1) yl))
                      else none)
                  tryLen [4, 3, 2]
              | none => none
            match withYear with
            | some r => some r
            | none => if boundaryAt s k then some (k, month, day, none) else none
      | none => none

/-- Month-name alternation of the month-date pattern, in source order. -/
def spacyMonthWords : List Str :=
  [lc "january", lc "february", lc "march", lc "april", lc "may", lc "june",
   lc "july", lc "august", lc "september", lc "october", lc "november",
   lc "december", lc "jan", lc "feb", lc "mar", lc "apr", lc "may", lc "jun",
   lc "jul", lc "aug", lc "sep", lc "oct", lc "nov", lc "dec"]

/-- Matcher for
`\b(<months>)[.\s]+(\d{1,2})(?:st|nd|rd|th)?(?:[,\s]+(\d{4}))?\b`;
returns the end position with month name, day, and optional year. -/
def monthDateAt (s : Str) (i : Nat) : Option (Nat × Str × Nat × Option Nat) :=
  if !boundaryAt s i then none
  else
    match altAt s spacyMonthWords i with
    | none => none
    | some (e, mword) =>
      let w := runLen (fun c => c = 46 || isSpaceCode c) s e
      if w = 0 then none
      else
        let j := e + w
        let n := runLen isDigitCode s j
        if n = 0 ∨ 2 < n then none
        else
          let day := readNat s j n
          let k := j + n
          let k2 :=
            match altAt s [lc "st", lc "nd", lc "rd", lc "th"] k with
            | some (e2, _) => e2
            | none => k
          let withYear : Option (Nat × Str × Nat × Option Nat) :=
            let wy := runLen (fun c => c = 44 || isSpaceCode c) s k2
            if wy = 0 then none
            else
              let ny := runLen isDigitCode s (k2 + wy)
              if 4 ≤ ny ∧ boundaryAt s (k2 + wy + 4) then
                some (k2 + wy + 4, mword, day, some (readNat s (k2 + wy) 4))
              else none
          match withYear with
          | some r => some r
          | none => if boundaryAt s k2 then some (k2, mword, day, none) else none

/-- The year normalisation and `datetime(...)` construction of the
numeric-date branch (lines 362-376): 2-digit years move to the 2000s;
an invalid calendar date (`ValueError`) yields `none`. -/
def resolveNumericDate (month day : Nat) (yearOpt : Option Nat) (refYear : Nat) :
    Option Date :=
  let year0 := yearOpt.getD refYear
  let year := if year0 < 100 then year0 + 2000 else year0
  if 1 ≤ month ∧ month ≤ 12 ∧ 1 ≤ day ∧ day ≤ 31 then mkDate year month day
  else none

/-- The month-name branch construction (lines 382-391): no 2-digit
normalisation (the year group is `\d{4}`); invalid dates yield `none`. -/
def resolveMonthDate (mword : Str) (day : Nat) (yearOpt : Option Nat)
    (refYear : Nat) : Option Date :=
  let year := yearOpt.getD refYear
  match (spacyMonthNames.find? (fun p => p.1 = mword)).map (·.2) with
  | some m => if 1 ≤ day ∧ day ≤ 31 then mkDate year m day else none
  | none => none

/-- `day_map` (lines 52-55): three-letter abbreviations to full names. -/
def spacyDayMap (term : Str) : Str :=
  let pairs := [(lc "mon", lc "monday"), (lc "tue", lc "tuesday"),
    (lc "wed", lc "wednesday"), (lc "thu", lc "thursday"), (lc "fri", lc "friday"),
    (lc "sat", lc "saturday"), (lc "sun", lc "sunday")]
  match pairs.find? (fun p => p.1 = term) with
  | some p => p.2
  | none => term

/-- The month-name tail of `_extract_date` (lines 378-393), reached when
no numeric date matched or the numeric candidate was invalid. -/
def spacyExtractDateMonth (low : Str) (reference_time : PyDateTime) : Option Date :=
  match searchCapAux (fun s i => (monthDateAt s i).map (fun r => (i, r.1))) low 0
      (low.length + 1) with
  | some st =>
    match monthDateAt low st.1 with
    | some (_, mword, day, yearOpt) =>
      resolveMonthDate mword day yearOpt reference_time.date.year
    | none => none
  | none => none

/-- `_extract_date` (lines 307-393). -/
def spacyExtractDate (text : Str) (reference_time : PyDateTime) : Option Date :=
  let low := lowerStr text
  match searchFirst relDateAt low with
  | some se =>
    match relDateTermAt low se.1 with
    | some term =>
      if term = lc "tomorrow" then some (addDaysNat reference_time.date 1)
      else if term = lc "the day after tomorrow" then
        some (addDaysNat reference_time.date 2)
      else some reference_time.date
    | none => none
  | none =>
    match searchCapAux (fun s i => (dayRefAt s i).map (fun r => (i, r.1))) low 0
        (low.length + 1) with
    | some st =>
      match dayRefAt low st.1 with
      | some (_, qualifier, day_term0) =>
        let day_term := spacyDayMap day_term0
        let day_term := if day_term = lc "weekend" then lc "saturday" else day_term
        let day_num :=
          match hfWeekdays.indexOf? day_term with
          | some n => n
          | none => 0
        let current_day := weekdayOf reference_time.date
        let days_to_add := (((day_num : Int) - current_day) % 7).toNat
        let days_to_add := if qualifier = lc "next" then days_to_add + 7 else days_to_add
        some (addDaysNat reference_time.date days_to_add)
      | none => none
    | none =>
      match searchCapAux (fun s i => (numDateAt s i).map (fun r => (i, r.1))) low 0
          (low.length + 1) with
      | some st =>
        match numDateAt low st.1 with
        | some (_, month, day, yearOpt) =>
          match resolveNumericDate month day yearOpt reference_time.date.year with
          | some d => some d
          | none => spacyExtractDateMonth low reference_time
        | none => none
      | none => spacyExtractDateMonth low reference_time

/-- Matcher for the time pattern of line 406,
`(\d{1,2})(?::(\d{2}))?(?:\s*(am|pm|AM|PM))` (case-sensitive, meridiem
required); returns the end position with hour, minute and the lowered
meridiem group. -/
def timeAt (s : Str) (i : Nat) : Option (Nat × Nat × Nat × Str) :=
  let n := runLen isDigitCode s i
  if n = 0 ∨ 2 < n then none
  else
    let hour := readNat s i n
    let tail : Nat → Nat → Option (Nat × Nat × Nat × Str) := fun pos minute =>
      let w := runLen isSpaceCode s pos
      match altAt s [lc "am", lc "pm", lc "AM", lc "PM"] (pos + w) with
      | some (e, ap) => some (e, hour, minute, lowerStr ap)
      | none => none
    let withColon :=
      match s[i + n]? with
      | some 58 =>
        if 2 ≤ runLen isDigitCode s (i + n + 1) then
          tail (i + n + 3) (readNat s (i + n + 1) 2)
        else none
      | _ => none
    match withColon with
    | some r => some r
    | none => tail (i + n) 0

/-- The matched named-time term at a position (pattern of line 423). -/
def namedTimeTermAt (s : Str) (i : Nat) : Option Str :=
  if !boundaryAt s i then none
  else
    match altAt s [lc "morning", lc "afternoon", lc "evening", lc "night",
      lc "noon", lc "midnight"] i with
    | none => none
    | some (e, t) => if boundaryAt s e then some t else none

/-- `_extract_time` (lines 395-441), returning the minute of day.
The `time(hour, minute)` constructor would raise for hours above 23 or
minutes above 59 (an exception the source does not catch); those inputs
are embedded as the raw minute count `hour * 60 + minute`, which no
claim depends on. -/
def spacyExtractTime (text : Str) : Option Nat :=
  match searchCapAux (fun s i => (timeAt s i).map (fun r => (i, r.1))) text 0
      (text.length + 1) with
  | some st =>
    match timeAt text st.1 with
    | some (_, hour, minute, am_pm) =>
      let hour :=
        if am_pm = lc "pm" ∧ hour < 12 then hour + 12
        else if am_pm = lc "am" ∧ hour = 12 then 0
        else hour
      some (hour * 60 + minute)
    | none => none
  | none =>
    let low := lowerStr text
    match searchCapAux (fun s i => (namedTimeTermAt s i).map (fun t => (i, i + t.length)))
        low 0 (low.length + 1) with
    | some st =>
      match namedTimeTermAt low st.1 with
      | some t =>
        if t = lc "morning" then some (9 * 60)
        else if t = lc "afternoon" then some (14 * 60)
        else if t = lc "evening" then some (18 * 60)
        else if t = lc "night" then some (20 * 60)
        else if t = lc "noon" then some (12 * 60)
        else some 0
      | none => none
    | none => none

/-- Matcher for `for\s+(\d+)\s+(minute|hour|day)s?` on lowered text;
returns (end, amount, unit). -/
def durForAt (s : Str) (i : Nat) : Option (Nat × Nat × Str) :=
  match litAt s (lc "for") i with
  | none => none
  | some e =>
    let w := runLen isSpaceCode s e
    if w = 0 then none
    else
      let n := runLen isDigitCode s (e + w)
      if n = 0 then none
      else
        let j := e + w + n
        let w2 := runLen isSpaceCode s j
        if w2 = 0 then none
        else
          match altAt s [lc "minute", lc "hour", lc "day"] (j + w2) with
          | none => none
          | some (e2, unit) =>
            let e3 := match s[e2]? with | some 115 => e2 + 1 | _ => e2
            some (e3, readNat s (e + w) n, unit)

/-- Matcher for `(\d+)\s+(minute|hour|day)s?\s+long` on lowered text. -/
def durLongAt (s : Str) (i : Nat) : Option (Nat × Nat × Str) :=
  let n := runLen isDigitCode s i
  if n = 0 then none
  else
    let w := runLen isSpaceCode s (i + n)
    if w = 0 then none
    else
      match altAt s [lc "minute", lc "hour", lc "day"] (i + n + w) with
      | none => none
      | some (e2, unit) =>
        let e3 := match s[e2]? with | some 115 => e2 + 1 | _ => e2
        let w2 := runLen isSpaceCode s e3
        if w2 = 0 then none
        else
          (litAt s (lc "long") (e3 + w2)).map (fun e4 => (e4, readNat s i n, unit))

/-- `_extract_duration` (lines 443-467), in minutes. -/
def spacyExtractDuration (text : Str) : Option Int :=
  let low := lowerStr text
  let toMinutes : Nat × Str → Int := fun au =>
    if au.2 = lc "minute" then (au.1 : Int)
    else if au.2 = lc "hour" then (au.1 : Int) * 60
    else (au.1 : Int) * 1440
  match searchCapAux (fun s i => (durForAt s i).map (fun r => (i, r.1))) low 0
      (low.length + 1) with
  | some st =>
    match durForAt low st.1 with
    | some (_, amount, unit) => some (toMinutes (amount, unit))
    | none => none
  | none =>
    match searchCapAux (fun s i => (durLongAt s i).map (fun r => (i, r.1))) low 0
        (low.length + 1) with
    | some st =>
      match durLongAt low st.1 with
      | some (_, amount, unit) => some (toMinutes (amount, unit))
      | none => none
    | none => none

/-- `_extract_time_info` (lines 266-305): always returns a pair (the
source never takes its `None` path), combining the extracted or default
date, the extracted or default time of day, and the extracted or default
duration. -/
def spacyExtractTimeInfo (text : Str) (reference_time : PyDateTime) :
    PyDateTime × PyDateTime :=
  let extracted_date := (spacyExtractDate text reference_time).getD reference_time.date
  let extracted_time :=
    match spacyExtractTime text with
    | some t => t
    | none =>
      if containsSub (lowerStr text) (lc "afternoon")
          || containsSub (lowerStr text) (lc "evening") then 14 * 60
      else 9 * 60
  let start_time : PyDateTime := ⟨extracted_date, extracted_time⟩
  let duration := (spacyExtractDuration text).getD 60
  (start_time, addMinutes start_time duration)

/-- `identify_commitments` of the spaCy adapter (lines 57-112).  The
spaCy pipeline is invoked unconditionally on the content (line 73), so
the invocation flag in the result is always `true`.  A commitment is
produced per segment whose `_extract_what` result is truthy; `who` is
the sender, `where` falls back to the sentinel through `or`, and the
time information is computed from the whole sentence.
`spacySegCommit` is the per-segment body of the loop (lines 85-110). -/
def spacySegCommit (communication : Communication)
    (extractWhat : Str → Option Str) (ents : Str → List NerEntity)
    (sentence segment : Str) : Option Commitment :=
  let what := extractWhat segment
  let whereO := spacyExtractWhere ents segment
  let time_info := spacyExtractTimeInfo sentence communication.timestamp
  match what with
  | some w =>
    if w.length = 0 then none
    else
      some { start_time := time_info.1, end_time := time_info.2,
             who := communication.sender, what := w,
             whereLoc :=
               match whereO with
               | some l => if l.length = 0 then lc "unspecified location" else l
               | none => lc "unspecified location" }
  | none => none

def spacyIdentify (communication : Communication) (sents : Str → List Str)
    (extractWhat : Str → Option Str) (ents : Str → List NerEntity) :
    List Commitment × Bool :=
  let sentences := sents communication.content
  let commitments := sentences.foldl
    (fun acc sentence =>
      (spacySplit sentence).foldl
        (fun acc2 segment =>
          acc2 ++ (spacySegCommit communication extractWhat ents sentence segment).toList)
        acc)
    []
  (commitments, true)

/-! ### Specification-side definitions

These two definitions follow the wording of the specification claims
(not the source) and are compared against the embedded code. -/

/-- The merge step as the specification words it: after sorting by start
offset, any two (now adjacent) spans whose gap is at most 2 characters
are merged into one candidate joined with a single space, carrying the
minimum confidence of the merged parts. -/
def mergeAdjacentFrom (a : PSpan) : List PSpan → List PSpan
  | [] => [a]
  | b :: rest =>
    if b.start ≤ a.stop + 2 then
      mergeAdjacentFrom ⟨a.word ++ (32 :: b.word), a.start, b.stop, min a.score b.score⟩ rest
    else a :: mergeAdjacentFrom b rest

def mergeAdjacent : List PSpan → List PSpan
  | [] => []
  | a :: rest => mergeAdjacentFrom a rest

/-- The person candidates surviving the specification pipeline: gather
PERSON spans, sort by start offset, merge adjacent spans, normalise the
names and keep those with at least one uppercase character and at most
3 whitespace-delimited tokens; each survivor carries its confidence. -/
def personSurvivors (standard_entities : List NerEntity) : List (Str × ℚ) :=
  (mergeAdjacent (List.insertionSort startOrder
    (personSpans standard_entities))).filterMap nameFilter

/-- The activity-based durations of the specification (minutes): meals
90, meeting/discuss 60, call 30, checkup/appointment 45,
recital/concert/performance 120, default 60. -/
def activityDuration (activity : Str) : Int :=
  let actLow := lowerStr activity
  if [lc "lunch", lc "dinner", lc "breakfast"].any (fun a => containsSub actLow a) then 90
  else if [lc "meeting", lc "discuss"].any (fun a => containsSub actLow a) then 60
  else if [lc "call"].any (fun a => containsSub actLow a) then 30
  else if [lc "checkup", lc "appointment"].any (fun a => containsSub actLow a) then 45
  else if [lc "recital", lc "concert", lc "performance"].any (fun a => containsSub actLow a) then 120
  else 60

/-- The duration policy with the precedence the code actually applies
(the amended claim): a broad time-of-day word in the matched time word
with no explicit clock time gives its window (morning 3h, afternoon 4h,
evening 3h) and a bare weekday gives 8h on weekdays and 4h on weekends;
when a broad word occurs together with a clock time the chain stops and
the activity duration applies; only when no window rule fires does the
activity-based duration apply. -/
def durationPolicy (time_word : Str) (activity : Str) (start : PyDateTime) : Int :=
  let broadWindow : Option Int :=
    if containsSub time_word (lc "morning") then
      if !hasClockRef time_word then some 180 else none
    else if containsSub time_word (lc "afternoon") then
      if !hasClockRef time_word then some 240 else none
    else if containsSub time_word (lc "evening") then
      if !hasClockRef time_word then some 180 else none
    else if hfWeekdays.any (fun day => containsSub time_word day) then
      if !hasClockRef time_word then
        some (if weekdayOf start.date < 5 then 480 else 240)
      else none
    else none
  match broadWindow with
  | some w => w
  | none => activityDuration activity

/-! ### Concrete fixtures for witnesses and counterexamples -/

/-- A recogniser that finds no entities (a perfectly possible NER
output). -/
def nerNone : Str → List NerEntity := fun _ => []

/-- A `dateparser` behaviour that parses nothing (the library does
return `None` for expressions such as bare time-of-day words). -/
def dpNone : Str → PyDateTime → Option PyDateTime := fun _ _ => none

/-- Sunday 2025-04-20, 10:00, used as reference instant and wall clock. -/
def refNow : PyDateTime := dtMk 2025 4 20 10 0

/-- A communication carrying an evening commitment. -/
def eveningComm : Communication :=
  ⟨lc "meet you in the evening", lc "Ari", lc "Blake", refNow⟩

/-- The same content with an empty recipient identity. -/
def eveningCommNoRecipient : Communication :=
  ⟨lc "meet you in the evening", lc "Ari", [], refNow⟩

/-- Scenario C content (the apostrophe built from its code point). -/
def scenCContent : Str :=
  lc "I" ++ (apos :: lc "ll call you tomorrow at 3:30 PM and we will meet on Friday at 10:00 AM.")

def scenCComm : Communication := ⟨scenCContent, lc "Ari", lc "Blake", refNow⟩

/-- A content containing no phrase of the intent vocabulary. -/
def raceComm : Communication := ⟨lc "I race you at 5 pm.", lc "Sam", lc "Bo", refNow⟩

/-- A communication with empty content. -/
def emptyComm : Communication := ⟨[], lc "Sam", lc "Bo", refNow⟩

/-- A sentence segmenter that returns the whole text as one sentence. -/
def sentsSelf : Str → List Str := fun t => [t]

/-- A sentence segmenter that returns no sentences (what the spaCy
pipeline yields on empty text). -/
def sentsNone : Str → List Str := fun _ => []

/-- A dependency-parse extraction that finds no action. -/
def whatNone : Str → Option Str := fun _ => none

/-- The dependency-parse extraction of the action in `raceComm`. -/
def whatRace : Str → Option Str := fun _ => some (lc "race you")

/-- Two adjacent PERSON spans (gap 1 between offsets 15 and 16). -/
def mariaEnts : List NerEntity :=
  [⟨lc "PER", lc "Maria", 10, 15, some 1⟩,
   ⟨lc "PER", lc "Rodriguez", 16, 25, some (mkRat 9 10)⟩]

/-- A concrete commitment for the scheduling witness. -/
def cW : Commitment :=
  ⟨dtMk 2025 1 6 12 0, dtMk 2025 1 6 13 0, lc "Ann", lc "Call", lc "Office", 15, 5⟩

/-- A concrete communication for the scheduling witness. -/
def commW : Communication := ⟨lc "call Ann", lc "Sam", lc "Ann", dtMk 2025 1 6 9 0⟩

/-! ### Helper lemmas -/

theorem dateLt_trans {a b c : Date} (h1 : dateLt a b) (h2 : dateLt b c) :
    dateLt a c := by
  rcases h1 with h1 | ⟨e1, h1⟩ <;> rcases h2 with h2 | ⟨e2, h2⟩
  · exact Or.inl (Nat.lt_trans h1 h2)
  · exact Or.inl (e2 ▸ h1)
  · exact Or.inl (e1 ▸ h2)
  · refine Or.inr ⟨e1.trans e2, ?_⟩
    rcases h1 with h1 | ⟨f1, h1⟩ <;> rcases h2 with h2 | ⟨f2, h2⟩
    · exact Or.inl (Nat.lt_trans h1 h2)
    · exact Or.inl (f2 ▸ h1)
    · exact Or.inl (f1 ▸ h2)
    · exact Or.inr ⟨f1.trans f2, Nat.lt_trans h1 h2⟩

theorem dateLt_succDay (d : Date) : dateLt d (succDay d) := by
  unfold succDay
  split
  · exact Or.inr ⟨rfl, Or.inr ⟨rfl, Nat.lt_succ_self _⟩⟩
  · split
    · exact Or.inr ⟨rfl, Or.inl (Nat.lt_succ_self _)⟩
    · exact Or.inl (Nat.lt_succ_self _)

theorem dateLt_addDaysNat (d : Date) (n : Nat) (h : 0 < n) :
    dateLt d (addDaysNat d n) := by
  induction n with
  | zero => omega
  | succ m ih =>
    cases Nat.eq_zero_or_pos m with
    | inl hz => subst hz; exact dateLt_succDay d
    | inr hp => exact dateLt_trans (ih hp) (dateLt_succDay _)

/-- Adding a non-negative number of minutes never moves a datetime
backwards (the only fact about datetime arithmetic the invariants need). -/
theorem dtLe_addMinutes (t : PyDateTime) (k : Int) (hk : 0 ≤ k) :
    dtLe t (addMinutes t k) := by
  unfold addMinutes
  have htot : (0 : Int) ≤ (t.mod : Int) + k := by positivity
  have hq : (0 : Int) ≤ ((t.mod : Int) + k) / 1440 := Int.ediv_nonneg htot (by norm_num)
  rcases Int.lt_or_le (((t.mod : Int) + k) / 1440) 1 with hq1 | hq1
  · -- quotient is zero: same date, minute of day grows
    have hq0 : ((t.mod : Int) + k) / 1440 = 0 := by omega
    have hmod : ((t.mod : Int) + k) % 1440 = (t.mod : Int) + k := by
      have := Int.ediv_add_emod ((t.mod : Int) + k) 1440
      omega
    refine Or.inr ⟨?_, ?_⟩
    · simp [hq0, addDaysInt, addDaysNat]
    · simp only [hmod, hq0]
      omega
  · -- at least one full day is added: the date strictly increases
    left
    have : addDaysInt t.date (((t.mod : Int) + k) / 1440)
        = addDaysNat t.date (((t.mod : Int) + k) / 1440).toNat := by
      simp [addDaysInt, hq]
    simp only [this]
    exact dateLt_addDaysNat _ _ (by omega)


theorem hfMergeSpans_some (l : List PSpan) :
    ∀ cur, hfMergeSpans (some cur) l = mergeAdjacentFrom cur l := by
  induction l with
  | nil => intro cur; rfl
  | cons sp rest ih =>
    intro cur
    show (if sp.start ≤ cur.stop + 2 then _ else _)
      = mergeAdjacentFrom cur (sp :: rest)
    rw [mergeAdjacentFrom]
    split
    · exact ih _
    · rw [ih sp]

theorem hfMergeSpans_none (l : List PSpan) :
    hfMergeSpans none l = mergeAdjacent l := by
  cases l with
  | nil => rfl
  | cons sp rest =>
    show hfMergeSpans (some sp) rest = _
    rw [hfMergeSpans_some, mergeAdjacent]

theorem hfExtractActivity_ne_nil (text : Str) : hfExtractActivity text ≠ [] := by
  unfold hfExtractActivity
  cases hfind : hfActivities.find? (fun a => searchWordCI (lowerStr text) a) with
  | none => decide
  | some a =>
    have ha := List.mem_of_find?_eq_some hfind
    have hne : a ≠ [] := by
      have hall : ∀ x ∈ hfActivities, x ≠ [] := by decide
      exact hall a ha
    cases a with
    | nil => exact absurd rfl hne
    | cons c rest => simp [capitalizeStr]

theorem activityDuration_nonneg (activity : Str) : 0 ≤ activityDuration activity := by
  unfold activityDuration
  dsimp only
  split_ifs <;> norm_num

theorem durationPolicy_nonneg (w act : Str) (t : PyDateTime) :
    0 ≤ durationPolicy w act t := by
  unfold durationPolicy
  dsimp only
  split_ifs <;> try norm_num
  all_goals exact activityDuration_nonneg act

theorem hfGetTimeRange_eq (te : TimeEntity) (activity : Str) :
    hfGetTimeRange te activity
      = (te.parsed_datetime,
         addMinutes te.parsed_datetime
           (durationPolicy (lowerStr te.word) activity te.parsed_datetime)) := by
  unfold hfGetTimeRange durationPolicy
  dsimp only
  cases containsSub (lowerStr te.word) (lc "morning") <;>
    cases containsSub (lowerStr te.word) (lc "afternoon") <;>
      cases containsSub (lowerStr te.word) (lc "evening") <;>
        cases hfWeekdays.any (fun day => containsSub (lowerStr te.word) day) <;>
          cases hasClockRef (lowerStr te.word) <;> rfl

theorem hfGetTimeRange_le (te : TimeEntity) (activity : Str) :
    dtLe (hfGetTimeRange te activity).1 (hfGetTimeRange te activity).2 := by
  rw [hfGetTimeRange_eq]
  exact dtLe_addMinutes _ _ (durationPolicy_nonneg _ _ _)

theorem spacyExtractDuration_nonneg (text : Str) :
    ∀ d, spacyExtractDuration text = some d → 0 ≤ d := by
  intro d h
  unfold spacyExtractDuration at h
  dsimp only at h
  repeat' split at h
  all_goals try exact Option.noConfusion h
  all_goals injection h with h2
  all_goals subst h2
  all_goals positivity

theorem spacyTimeInfo_le (text : Str) (reference_time : PyDateTime) :
    dtLe (spacyExtractTimeInfo text reference_time).1
      (spacyExtractTimeInfo text reference_time).2 := by
  unfold spacyExtractTimeInfo
  dsimp only
  apply dtLe_addMinutes
  cases hd : spacyExtractDuration text with
  | none => simp [hd]
  | some d => simpa [hd] using spacyExtractDuration_nonneg text d hd

theorem hfExtractPerson_max (ents : List NerEntity) (name : Str)
    (h : hfExtractPerson ents = some name) :
    ∃ q, (name, q) ∈ personSurvivors ents
      ∧ ∀ p ∈ personSurvivors ents, p.2 ≤ q := by
  unfold hfExtractPerson at h
  dsimp only at h
  rw [hfMergeSpans_none] at h
  have hps : (mergeAdjacent (List.insertionSort startOrder
      (personSpans ents))).filterMap nameFilter = personSurvivors ents := rfl
  rw [hps] at h
  split at h
  · exact Option.noConfusion h
  · split at h
    · exact Option.noConfusion h
    · have hsorted := List.sorted_insertionSort scoreOrder (personSurvivors ents)
      have hperm := List.perm_insertionSort scoreOrder (personSurvivors ents)
      cases hms : List.insertionSort scoreOrder (personSurvivors ents) with
      | nil => rw [hms] at h; exact Option.noConfusion h
      | cons q0 t =>
        rw [hms] at h
        simp only [List.head?, Option.map] at h
        injection h with hname
        rw [hms] at hsorted hperm
        refine ⟨q0.2, ?_, ?_⟩
        · have hmem : q0 ∈ personSurvivors ents :=
            hperm.mem_iff.mp (List.mem_cons_self _ _)
          rw [← hname]
          exact hmem
        · intro p hp
          have hpm : p ∈ q0 :: t := hperm.mem_iff.mpr hp
          rcases List.mem_cons.mp hpm with rfl | hpt
          · exact le_refl _
          · exact (List.pairwise_cons.mp hsorted).1 p hpt

theorem hfExtractPerson_none (ents : List NerEntity)
    (h : hfExtractPerson ents = none) : personSurvivors ents = [] := by
  unfold hfExtractPerson at h
  dsimp only at h
  rw [hfMergeSpans_none] at h
  have hps : (mergeAdjacent (List.insertionSort startOrder
      (personSpans ents))).filterMap nameFilter = personSurvivors ents := rfl
  rw [hps] at h
  split at h
  · rename_i hlen
    have hnil : personSpans ents = [] := List.length_eq_zero.mp hlen
    rw [← hps, hnil]
    rfl
  · split at h
    · rename_i hlen
      exact List.length_eq_zero.mp hlen
    · cases hms : List.insertionSort scoreOrder (personSurvivors ents) with
      | nil =>
        have hperm := List.perm_insertionSort scoreOrder (personSurvivors ents)
        rw [hms] at hperm
        exact hperm.symm.eq_nil
      | cons q0 t =>
        rw [hms] at h
        simp only [List.head?, Option.map] at h
        exact Option.noConfusion h

theorem spacySeg_foldl_mem (communication : Communication)
    (extractWhat : Str → Option Str) (ents : Str → List NerEntity)
    (sentence : Str) (c : Commitment) :
    ∀ (segs : List Str) (acc : List Commitment),
      c ∈ segs.foldl
        (fun acc2 seg =>
          acc2 ++ (spacySegCommit communication extractWhat ents sentence seg).toList)
        acc →
      c ∈ acc ∨ ∃ seg,
        spacySegCommit communication extractWhat ents sentence seg = some c := by
  intro segs
  induction segs with
  | nil => intro acc h; exact Or.inl h
  | cons s rest ih =>
    intro acc h
    rcases ih _ h with hacc | hex
    · rcases List.mem_append.mp hacc with h1 | h2
      · exact Or.inl h1
      · exact Or.inr ⟨s, Option.mem_def.mp (Option.mem_toList.mp h2)⟩
    · exact Or.inr hex

theorem spacyIdentify_mem (communication : Communication)
    (sents : Str → List Str) (extractWhat : Str → Option Str)
    (ents : Str → List NerEntity) (c : Commitment)
    (hc : c ∈ (spacyIdentify communication sents extractWhat ents).1) :
    ∃ sentence seg,
      spacySegCommit communication extractWhat ents sentence seg = some c := by
  unfold spacyIdentify at hc
  dsimp only at hc
  have main : ∀ (sentences : List Str) (acc : List Commitment),
      c ∈ sentences.foldl
        (fun acc sentence =>
          (spacySplit sentence).foldl
            (fun acc2 seg =>
              acc2 ++ (spacySegCommit communication extractWhat ents sentence seg).toList)
            acc)
        acc →
      c ∈ acc ∨ ∃ sentence seg,
        spacySegCommit communication extractWhat ents sentence seg = some c := by
    intro sentences
    induction sentences with
    | nil => intro acc h; exact Or.inl h
    | cons sentence rest ih =>
      intro acc h
      rcases ih _ h with hacc | hex
      · rcases spacySeg_foldl_mem communication extractWhat ents sentence c _ _ hacc
          with h1 | ⟨seg, hseg⟩
        · exact Or.inl h1
        · exact Or.inr ⟨sentence, seg, hseg⟩
      · exact Or.inr hex
  rcases main _ _ hc with h0 | hex
  · exact absurd h0 (List.not_mem_nil c)
  · exact hex

theorem spacySegCommit_inv (communication : Communication)
    (extractWhat : Str → Option Str) (ents : Str → List NerEntity)
    (sentence segment : Str) (c : Commitment)
    (h : spacySegCommit communication extractWhat ents sentence segment = some c) :
    dtLe c.start_time c.end_time ∧ c.who = communication.sender
      ∧ c.what ≠ [] ∧ c.whereLoc ≠ [] := by
  unfold spacySegCommit at h
  dsimp only at h
  split at h
  · rename_i w
    split at h
    · exact Option.noConfusion h
    · rename_i hw
      injection h with hc
      subst hc
      refine ⟨spacyTimeInfo_le _ _, rfl, ?_, ?_⟩
      · intro hnil
        exact hw (by simpa using hnil)
      · show (match spacyExtractWhere ents segment with
          | some l => if l.length = 0 then lc "unspecified location" else l
          | none => lc "unspecified location") ≠ []
        split
        · split
          · decide
          · rename_i hl
            intro hnil
            exact hl (by simp [hnil])
        · decide
  · exact Option.noConfusion h

theorem hfIdentify_len (communication : Communication)
    (ner : Str → List NerEntity) (dp : Str → PyDateTime → Option PyDateTime)
    (now : PyDateTime) :
    (hfIdentify communication ner dp now).1.length ≤ 1 := by
  unfold hfIdentify hfIdentifyFrom
  dsimp only
  split
  · simp
  · split
    · simp
    · split <;> simp

theorem hfIdentify_inv (communication : Communication)
    (ner : Str → List NerEntity) (dp : Str → PyDateTime → Option PyDateTime)
    (now : PyDateTime) (hr : communication.recipient ≠ [])
    (hw : ∀ e ∈ ner communication.content, e.word ≠ []) :
    ∀ c ∈ (hfIdentify communication ner dp now).1,
      dtLe c.start_time c.end_time ∧ c.who ≠ [] ∧ c.what ≠ [] ∧ c.whereLoc ≠ [] := by
  intro c hc
  unfold hfIdentify hfIdentifyFrom at hc
  dsimp only at hc
  split at hc
  · simp at hc
  · split at hc
    · simp at hc
    · split at hc
      · simp at hc
      · simp only [List.mem_singleton] at hc
        subst hc
        refine ⟨hfGetTimeRange_le _ _, ?_, hfExtractActivity_ne_nil _, ?_⟩
        · show (match hfExtractPerson (ner communication.content) with
            | some p => if p.length = 0 then communication.recipient else p
            | none => communication.recipient) ≠ []
          split
          · rename_i p
            split
            · exact hr
            · rename_i hp
              intro hnil
              exact hp (by simp [hnil])
          · exact hr
        · show (match (ner communication.content).find?
              (fun e => hfLocationLabels.contains e.entity) with
            | some le => le.word
            | none => lc "location mentioned in message") ≠ []
          split
          · rename_i le hfind
            exact hw le (List.mem_of_find?_eq_some hfind)
          · decide

set_option maxRecDepth 4096 in
theorem c9_year_normalised : ∀ m d y refY dte, y < 100 →
    resolveNumericDate m d (some y) refY = some dte → dte.year = y + 2000 := by
  intro m d y refY dte hy h
  have hh : resolveNumericDate m d (some y) refY
      = (if 1 ≤ m ∧ m ≤ 12 ∧ 1 ≤ d ∧ d ≤ 31 then mkDate (y + 2000) m d
         else none) := by
    unfold resolveNumericDate
    simp [Option.getD, hy]
  rw [hh] at h
  split at h
  · unfold mkDate at h
    split at h
    · injection h with h2
      subst h2
      rfl
    · exact Option.noConfusion h
  · exact Option.noConfusion h

/-! ### Claim theorems -/

/-- C10: `Reminder.is_due` returns true exactly when the current time
has reached `when` and the reminder is unacknowledged; after
`acknowledge()` it returns false regardless of the clock, and no
sequence of `snooze` calls changes that, because `snooze` only moves
`when` and never touches `acknowledged`. -/
theorem reminder_is_due_semantics :
    (∀ (r : Reminder) (now : PyDateTime),
        r.is_due now = true ↔ (dtLe r.when now ∧ r.acknowledged = false))
    ∧ (∀ (r : Reminder) (now : PyDateTime), r.ack.is_due now = false)
    ∧ (∀ (r : Reminder) (now : PyDateTime) (ds : List Int),
        (ds.foldl (fun x d => x.snooze d) r.ack).is_due now = false)
    ∧ (∀ (r : Reminder) (d : Int), (r.snooze d).acknowledged = r.acknowledged) := by
  have hack : ∀ (l : List Int) (x : Reminder),
      (l.foldl (fun x d => x.snooze d) x).acknowledged = x.acknowledged := by
    intro l
    induction l with
    | nil => intro x; rfl
    | cons d rest ih => intro x; rw [List.foldl_cons]; rw [ih]; rfl
  refine ⟨?_, ?_, ?_, ?_⟩
  · intro r now
    simp [Reminder.is_due, Bool.and_eq_true, decide_eq_true_eq, Bool.not_eq_true']
  · intro r now
    simp [Reminder.is_due, Reminder.ack]
  · intro r now ds
    have h1 : (ds.foldl (fun x d => x.snooze d) r.ack).acknowledged = true := by
      rw [hack ds r.ack]; rfl
    simp [Reminder.is_due, h1]
  · intro r d
    rfl

/-- C5 counterexample: the evening commitment produced by the full
HuggingFace pipeline gets a reminder at `start_time - 30` minutes
(17:30), while `calculate_departure_time()` (start minus the default
travel and preparation times) is 17:40 — so `when` is not the departure
time. -/
theorem reminder_time_not_departure_time :
    (process_communication
        (fun c => (hfIdentify c nerNone dpNone refNow).1) refNow eveningComm).map
      (fun r => (r.when, r.commitment.calculate_departure_time))
      = [(dtMk 2025 4 20 17 30, dtMk 2025 4 20 17 40)]
    ∧ dtMk 2025 4 20 17 30 ≠ dtMk 2025 4 20 17 40 := by decide

/-- C5 (amended): every Reminder created by `process_communication`
has `when = start_time - 30` minutes — the fixed default `lead_time` of
`Reminder.from_commitment`, not the travel-plus-preparation departure
time. -/
theorem reminder_fixed_lead_time
    (identify : Communication → List Commitment) (now : PyDateTime)
    (communication : Communication) (r : Reminder)
    (hr : r ∈ process_communication identify now communication) :
    r.when = addMinutes r.commitment.start_time (-30) := by
  unfold process_communication at hr
  rcases List.mem_map.mp hr with ⟨c, _, rfl⟩
  rfl

/-- Witness for the amended C5 at a concrete commitment. -/
theorem reminder_fixed_lead_time_witness :
    (Reminder.from_commitment (dtMk 2025 1 6 9 0) cW 30).when
      = addMinutes
          (Reminder.from_commitment (dtMk 2025 1 6 9 0) cW 30).commitment.start_time
          (-30) :=
  reminder_fixed_lead_time (fun _ => [cW]) (dtMk 2025 1 6 9 0) commW _ (by decide)

/-- C8 counterexample: the same communication (same content and same
reference timestamp) processed at two different wall-clock instants
yields structurally different results — the HuggingFace adapter anchors
time resolution to `datetime.now()`, not to the reference timestamp. -/
theorem hf_wall_clock_dependence :
    hfIdentify eveningComm nerNone dpNone refNow
      ≠ hfIdentify eveningComm nerNone dpNone (dtMk 2025 4 20 19 0) := by decide

/-- C8 (amended): the HuggingFace adapter's result is a function of the
content, the recipient, the external collaborators and the wall clock
only — it ignores the Communication's reference timestamp entirely, so
two runs agree when (and, in general, only when) they happen at the
same wall-clock instant. -/
theorem hf_ignores_reference_timestamp
    (content sender recipient : Str) (ts1 ts2 : PyDateTime)
    (ner : Str → List NerEntity) (dp : Str → PyDateTime → Option PyDateTime)
    (now : PyDateTime) :
    hfIdentify ⟨content, sender, recipient, ts1⟩ ner dp now
      = hfIdentify ⟨content, sender, recipient, ts2⟩ ner dp now := rfl

/-- C3 counterexample: on empty content the spaCy adapter still invokes
its NLP pipeline (the invocation flag is true) even though it returns
zero commitments. -/
theorem spacy_pipeline_invoked_on_empty_content :
    (spacyIdentify emptyComm sentsNone whatNone nerNone).1 = []
    ∧ (spacyIdentify emptyComm sentsNone whatNone nerNone).2 = true := by decide

/-- C3 (amended): on empty content the HuggingFace adapter returns the
empty list without invoking its recogniser, and the spaCy adapter also
returns the empty list (provided its pipeline yields no sentences for
empty text) but does invoke the pipeline. -/
theorem empty_content_behaviour
    (communication : Communication) (ner : Str → List NerEntity)
    (dp : Str → PyDateTime → Option PyDateTime) (now : PyDateTime)
    (sents : Str → List Str) (extractWhat : Str → Option Str)
    (ents : Str → List NerEntity)
    (hc : communication.content = []) :
    hfIdentify communication ner dp now = ([], false)
    ∧ (spacyIdentify communication sents extractWhat ents).2 = true
    ∧ (sents communication.content = [] →
        (spacyIdentify communication sents extractWhat ents).1 = []) := by
  refine ⟨?_, rfl, ?_⟩
  · unfold hfIdentify hfIdentifyFrom
    rw [hc]
    simp
  · intro hs
    unfold spacyIdentify
    rw [hs]
    rfl

/-- Witness for the amended C3 at a concrete empty communication. -/
theorem empty_content_behaviour_witness :
    hfIdentify emptyComm nerNone dpNone refNow = ([], false)
    ∧ (spacyIdentify emptyComm sentsNone whatNone nerNone).2 = true
    ∧ (sentsNone emptyComm.content = [] →
        (spacyIdentify emptyComm sentsNone whatNone nerNone).1 = []) :=
  empty_content_behaviour emptyComm nerNone dpNone refNow sentsNone whatNone
    nerNone (by decide)

/-- C4 counterexample: `"I race you at 5 pm."` contains no phrase of the
intent vocabulary, yet the spaCy adapter (which has no intent check)
invokes its pipeline and — with the dependency parse finding the action
"race you" — returns one commitment rather than the empty list. -/
theorem spacy_no_intent_check_produces_commitment :
    hfHasIntent raceComm.content = false
    ∧ (spacyIdentify raceComm sentsSelf whatRace nerNone).1.length = 1
    ∧ (spacyIdentify raceComm sentsSelf whatRace nerNone).2 = true := by decide

/-- C4 (amended): for the HuggingFace adapter the claim holds — content
without an intent phrase yields the empty list with the recogniser never
invoked, the intent check preceding recognition; the spaCy adapter
performs no intent check at all. -/
theorem hf_intent_gate
    (communication : Communication) (ner : Str → List NerEntity)
    (dp : Str → PyDateTime → Option PyDateTime) (now : PyDateTime)
    (h : hfHasIntent communication.content = false) :
    hfIdentify communication ner dp now = ([], false) := by
  unfold hfIdentify hfIdentifyFrom
  dsimp only
  split
  · rfl
  · simp [h]

/-- Witness for the amended C4 at a concrete intent-free communication. -/
theorem hf_intent_gate_witness :
    hfIdentify raceComm nerNone dpNone refNow = ([], false) :=
  hf_intent_gate raceComm nerNone dpNone refNow (by decide)

/-- C2 counterexample: on the Scenario C content the HuggingFace
`identify_commitments` does not return two commitments (here, with a
recogniser finding no entities and a date parser resolving none of the
matched expressions, it returns zero; by the amended claim it can never
return more than one). -/
theorem scenario_two_commitments_fails_on_hf :
    (hfIdentify scenCComm nerNone dpNone refNow).1.length ≠ 2 := by decide

/-- C2 (amended): the HuggingFace adapter returns at most one Commitment
for any input (it uses only the first resolved time expression), so only
the spaCy adapter can return two; its clause splitter does split the
Scenario C sentence into exactly two segments, the first containing
"call" and the second containing "meet" (one commitment is then produced
per segment when the external parse yields an action and a time). -/
theorem hf_single_commitment_and_split_segments :
    (∀ (communication : Communication) (ner : Str → List NerEntity)
        (dp : Str → PyDateTime → Option PyDateTime) (now : PyDateTime),
        (hfIdentify communication ner dp now).1.length ≤ 1)
    ∧ spacySplit scenCContent
        = [lc "I" ++ (apos :: lc "ll call you tomorrow at 3:30 PM"),
           lc "and we will meet on Friday at 10:00 AM."]
    ∧ containsSub (lowerStr (lc "I" ++ (apos :: lc "ll call you tomorrow at 3:30 PM")))
        (lc "call") = true
    ∧ containsSub (lowerStr (lc "and we will meet on Friday at 10:00 AM."))
        (lc "meet") = true :=
  ⟨hfIdentify_len, by decide, by decide, by decide⟩

/-- C6 counterexample: for the time word "tomorrow morning" (no explicit
clock time) and the activity "Lunch", the computed range is a 3-hour
window, not the 90-minute meal duration — so the meal rule is not the
first applicable rule to win. -/
theorem duration_meal_rule_not_first :
    (hfGetTimeRange ⟨lc "tomorrow morning", 0, 16, dtMk 2025 4 21 9 0, 1⟩
        (lc "Lunch")).2
      = addMinutes (dtMk 2025 4 21 9 0) 180
    ∧ (hfGetTimeRange ⟨lc "tomorrow morning", 0, 16, dtMk 2025 4 21 9 0, 1⟩
        (lc "Lunch")).2
      ≠ addMinutes (dtMk 2025 4 21 9 0) 90 := by decide

/-- C6 (amended): `_get_time_range` keeps the claimed duration values
but with the opposite precedence — the broad time-of-day and bare
weekday window rules are checked first on the matched time word and
override the activity durations; the activity-based durations (meals 90,
meeting/discuss 60, call 30, checkup/appointment 45,
recital/concert/performance 120, default 60) apply only when no window
rule fires, and a broad period word accompanied by an explicit clock
time falls through to the activity duration. -/
theorem time_range_follows_window_priority (te : TimeEntity) (activity : Str) :
    hfGetTimeRange te activity
      = (te.parsed_datetime,
         addMinutes te.parsed_datetime
           (durationPolicy (lowerStr te.word) activity te.parsed_datetime)) :=
  hfGetTimeRange_eq te activity

/-- C7: the person resolver implements the specified pipeline — sort by
start offset, merge spans with gap at most 2 into space-joined
candidates carrying the minimum confidence, keep only name-shaped
candidates (at least one uppercase code point, at most 3 tokens) — and
any returned name is a surviving candidate of maximal confidence (and
when it returns none there are no survivors); in particular the adjacent
spans "Maria" and "Rodriguez" merge into "Maria Rodriguez". -/
theorem person_resolver_correct :
    (∀ (ents : List NerEntity) (name : Str), hfExtractPerson ents = some name →
        ∃ q, (name, q) ∈ personSurvivors ents
          ∧ ∀ p ∈ personSurvivors ents, p.2 ≤ q)
    ∧ (∀ ents, hfExtractPerson ents = none → personSurvivors ents = [])
    ∧ hfExtractPerson mariaEnts = some (lc "Maria Rodriguez") :=
  ⟨hfExtractPerson_max, hfExtractPerson_none, by decide⟩

/-- Witness for C7: the "Maria Rodriguez" candidate is a maximal
survivor, by the theorem applied at the concrete entity list. -/
theorem person_resolver_correct_witness :
    ∃ q, (lc "Maria Rodriguez", q) ∈ personSurvivors mariaEnts
      ∧ ∀ p ∈ personSurvivors mariaEnts, p.2 ≤ q :=
  person_resolver_correct.1 mariaEnts (lc "Maria Rodriguez") (by decide)

/-- C9: a matched numeric calendar expression naming an invalid date is
silently discarded (`none`, the `ValueError` is swallowed) with
extraction continuing to the month-name branch, and a 2-digit year in a
matched numeric date is normalised into the 2000s by adding 2000; on
whole inputs: "Feb 30" and "2/30/2025" extract no date and "12/25/24"
extracts 2024-12-25. -/
theorem invalid_dates_discarded_two_digit_years :
    (∀ m d y refY,
        isValidYMD (if y < 100 then y + 2000 else y) m d = false →
        resolveNumericDate m d (some y) refY = none)
    ∧ (∀ m d y refY dte, y < 100 →
        resolveNumericDate m d (some y) refY = some dte → dte.year = y + 2000)
    ∧ spacyExtractDate (lc "Feb 30 deadline") refNow = none
    ∧ spacyExtractDate (lc "I need it by 2/30/2025 ok") refNow = none
    ∧ spacyExtractDate (lc "due 12/25/24") refNow = some ⟨2024, 12, 25⟩ := by
  refine ⟨?_, ?_, by decide, by decide, by decide⟩
  · intro m d y refY hinv
    unfold resolveNumericDate
    dsimp only [Option.getD]
    split
    · simp [mkDate, hinv]
    · rfl
  · exact c9_year_normalised

/-- Witness for C9: February 30 with the 2-digit year 25 is discarded,
and the valid 12/25/24 resolves with year 24 + 2000. -/
theorem invalid_dates_discarded_two_digit_years_witness :
    resolveNumericDate 2 30 (some 25) 2025 = none
    ∧ (⟨2024, 12, 25⟩ : Date).year = 24 + 2000 :=
  ⟨invalid_dates_discarded_two_digit_years.1 2 30 25 2025 (by decide),
   invalid_dates_discarded_two_digit_years.2.1 12 25 24 2025 ⟨2024, 12, 25⟩
     (by decide) (by decide)⟩

/-- C1 counterexample: with an empty recipient identity (an admissible
string value) and a recogniser finding no person, the HuggingFace
adapter produces a commitment whose `who` is the empty string — the
non-emptiness of `who` does not hold for every value of the sender and
recipient fields. -/
theorem commitment_who_empty_for_empty_recipient :
    ((hfIdentify eveningCommNoRecipient nerNone dpNone refNow).1.map
      (fun c => c.who)) = [[]] := by decide

/-- C1 (amended): every commitment produced by either adapter satisfies
`end_time >= start_time` and has non-empty `what` and `where` (with the
sentinels substituted when extraction is inconclusive), and `who` is
non-empty provided the Communication's sender and recipient identities
are non-empty (the fallback `who` is the recipient for the HuggingFace
adapter and the sender for the spaCy adapter) and the recogniser reports
non-empty entity texts (the HuggingFace `where` copies a location entity
text verbatim). -/
theorem commitment_invariants_nonempty_parties
    (communication : Communication) (ner : Str → List NerEntity)
    (dp : Str → PyDateTime → Option PyDateTime) (now : PyDateTime)
    (sents : Str → List Str) (extractWhat : Str → Option Str)
    (ents : Str → List NerEntity)
    (hs : communication.sender ≠ []) (hr : communication.recipient ≠ [])
    (hw : ∀ e ∈ ner communication.content, e.word ≠ []) :
    (∀ c ∈ (hfIdentify communication ner dp now).1,
        dtLe c.start_time c.end_time ∧ c.who ≠ [] ∧ c.what ≠ [] ∧ c.whereLoc ≠ [])
    ∧ (∀ c ∈ (spacyIdentify communication sents extractWhat ents).1,
        dtLe c.start_time c.end_time ∧ c.who ≠ [] ∧ c.what ≠ [] ∧ c.whereLoc ≠ []) := by
  refine ⟨hfIdentify_inv communication ner dp now hr hw, ?_⟩
  intro c hc
  rcases spacyIdentify_mem communication sents extractWhat ents c hc with
    ⟨sentence, seg, hseg⟩
  have h4 := spacySegCommit_inv communication extractWhat ents sentence seg c hseg
  refine ⟨h4.1, ?_, h4.2.2.1, h4.2.2.2⟩
  rw [h4.2.1]
  exact hs

/-- Witness for the amended C1 at a concrete communication processed by
both adapters. -/
theorem commitment_invariants_nonempty_parties_witness :
    (∀ c ∈ (hfIdentify eveningComm nerNone dpNone refNow).1,
        dtLe c.start_time c.end_time ∧ c.who ≠ [] ∧ c.what ≠ [] ∧ c.whereLoc ≠ [])
    ∧ (∀ c ∈ (spacyIdentify eveningComm sentsSelf whatNone nerNone).1,
        dtLe c.start_time c.end_time ∧ c.who ≠ [] ∧ c.what ≠ [] ∧ c.whereLoc ≠ []) :=
  commitment_invariants_nonempty_parties eveningComm nerNone dpNone refNow
    sentsSelf whatNone nerNone (by decide) (by decide) (by simp [nerNone])
